import Mathlib

/-!
Verification of the 2D structural solver core of `motorcycle_dynamics_v3`
(`backend/app/simulation.py`, `backend/app/truss_solver.py`, data shapes
from `backend/app/schemas.py`).

Modelling conventions:
- floating-point numbers are modelled exactly by real numbers;
- `math.hypot dx dy` is `Real.sqrt (dx ^ 2 + dy ^ 2)`;
- `numpy.linalg.solve` on a square system is modelled as: raise
  `LinAlgError` exactly when the matrix is singular (`det = 0`), otherwise
  return the unique solution `A⁻¹ *ᵥ b`;
- Python exceptions (`AssemblyError`, `TrussError`) are modelled with
  `Except`; the distinct message strings raised by the source are modelled
  by inductive error kinds, each paired with its exact message text below.
-/

open Matrix

namespace Structural

open scoped Classical

/-- Boundary condition flags for a node (`schemas.NodeConstraint`). -/
structure NodeConstraint where
  fix_x : Bool
  fix_y : Bool
  fix_rotation : Bool

/-- A node of the structure (`schemas.NodeInput`). -/
structure NodeInput where
  id : String
  x : ℝ
  y : ℝ
  constraints : Option NodeConstraint

/-- A beam/member (`schemas.BeamInput`): endpoints by node id, and the
section/material scalars Young's modulus `E`, second moment of area `I`,
cross-sectional area `A`. -/
structure BeamInput where
  id : String
  node_start : String
  node_end : String
  E : ℝ
  I : ℝ
  A : ℝ

/-- A concentrated nodal load (`schemas.LoadInput`). -/
structure LoadInput where
  node_id : String
  Fx : ℝ
  Fy : ℝ
  Moment : ℝ

/-- Full analysis request (`schemas.SimulationInput`). -/
structure SimulationInput where
  nodes : List NodeInput
  beams : List BeamInput
  loads : List LoadInput
  analysis_type : String

/-- Per-node displacement result (`schemas.NodeResult`). -/
structure NodeResult where
  id : String
  ux : ℝ
  uy : ℝ
  rotation : ℝ

/-- Per-member internal force result (`schemas.BeamInternalForce`). -/
structure BeamInternalForce where
  id : String
  axial : ℝ
  shear_start : ℝ
  shear_end : ℝ
  moment_start : ℝ
  moment_end : ℝ

/-- Analysis result (`schemas.SimulationResult`). -/
structure SimulationResult where
  displacements : List NodeResult
  internal_forces : List BeamInternalForce

/-- The distinct failures `simulation.simulate_structure` can raise
(all are `AssemblyError`s in the source; we keep the kinds apart and
record the exact message of each in `FrameError.message`). -/
inductive FrameError where
  | unknownNodeBeam (beamId : String)
  | unknownNodeLoad (nodeId : String)
  | zeroLength
  | singular
deriving DecidableEq

/-- The exact message string the source attaches to each frame error. -/
def FrameError.message : FrameError → String
  | .unknownNodeBeam b => "Beam " ++ b ++ " references unknown node"
  | .unknownNodeLoad n => "Load references unknown node " ++ n
  | .zeroLength => "Zero length element"
  | .singular =>
      "Global stiffness matrix is singular. Structure may be unstable or insufficient constraints."

/-- The distinct failures `truss_solver.solve_truss` can raise
(all are `TrussError`s in the source). `notDeterminate` carries the two
counted quantities `m+r` and `2j` reported in the message. -/
inductive TrussError where
  | notDeterminate (mr twoJ : ℕ)
  | unknownNodeBeam (beamId : String)
  | unknownNodeLoad (nodeId : String)
  | zeroLength
  | singular
deriving DecidableEq

/-- The exact message string the source attaches to each truss error. -/
def TrussError.message : TrussError → String
  | .notDeterminate mr twoJ =>
      "Truss not statically determinate: m+r=" ++ toString mr ++ ", 2j=" ++ toString twoJ
  | .unknownNodeBeam b => "Beam " ++ b ++ " references unknown node"
  | .unknownNodeLoad n => "Load references unknown node " ++ n
  | .zeroLength => "Zero-length member"
  | .singular => "Singular equilibrium system (unstable or indeterminate)"

/-- Index of a node id in the node list, as built by
`{n.id: i for i, n in enumerate(nodes)}`: for a duplicated id the Python
dict keeps the binding of the last occurrence, so we return the last
matching index. -/
def nodeIdx : (nodes : List NodeInput) → String → Option (Fin nodes.length)
  | [], _ => none
  | n :: rest, s =>
    match nodeIdx rest s with
    | some k => some k.succ
    | none => if n.id = s then some ⟨0, Nat.succ_pos _⟩ else none

/-- The local 6×6 stiffness matrix of a 2D Euler-Bernoulli frame element as
filled in entry-by-entry by `_element_stiffness` (unset entries are zero). -/
noncomputable def kLocal (E A I L : ℝ) : Matrix (Fin 6) (Fin 6) ℝ :=
  let EA_L := E * A / L
  let EI := E * I
  let L2 := L * L
  let L3 := L2 * L
  !![EA_L,  0,           0,          -EA_L, 0,           0;
     0,     12*EI/L3,    6*EI/L2,    0,     -12*EI/L3,   6*EI/L2;
     0,     6*EI/L2,     4*EI/L,     0,     -6*EI/L2,    2*EI/L;
     -EA_L, 0,           0,          EA_L,  0,           0;
     0,     -12*EI/L3,   -6*EI/L2,   0,     12*EI/L3,    -6*EI/L2;
     0,     6*EI/L2,     2*EI/L,     0,     -6*EI/L2,    4*EI/L]

/-- The 6×6 transformation matrix `T` built from the direction cosines in
both `_element_stiffness` and the force-recovery loop. -/
noncomputable def Tmat (c s : ℝ) : Matrix (Fin 6) (Fin 6) ℝ :=
  !![c, -s, 0, 0, 0,  0;
     s, c,  0, 0, 0,  0;
     0, 0,  1, 0, 0,  0;
     0, 0,  0, c, -s, 0;
     0, 0,  0, s, c,  0;
     0, 0,  0, 0, 0,  1]

/-- `simulation._element_stiffness`: length check, direction cosines, and
the global 6×6 contribution `Tᵀ k T`; returns `(k_global, L, c, s)`. -/
noncomputable def _element_stiffness (E A I x1 y1 x2 y2 : ℝ) :
    Except FrameError (Matrix (Fin 6) (Fin 6) ℝ × ℝ × ℝ × ℝ) :=
  let dx := x2 - x1
  let dy := y2 - y1
  let L := Real.sqrt (dx ^ 2 + dy ^ 2)
  if L ≤ 0 then .error .zeroLength
  else
    let c := dx / L
    let s := dy / L
    .ok ((Tmat c s)ᵀ * kLocal E A I L * Tmat c s, L, c, s)

/-- An element descriptor retained for force recovery: the beam, the two
resolved endpoint indices and the global stiffness contribution
(the source stores `(b, dof_map, k_e)`; `dof_map` is determined by
`i` and `j`). -/
structure ElemDesc (n : ℕ) where
  beam : BeamInput
  i : Fin n
  j : Fin n
  ke : Matrix (Fin 6) (Fin 6) ℝ

/-- The six global DOF indices owned by the two endpoints of an element
(`_node_dof_indices` applied to both endpoints, in source order). -/
def dofMap (n : ℕ) (i j : Fin n) : Fin 6 → Fin (3 * n) :=
  ![⟨3 * i.val, by have := i.isLt; omega⟩,
    ⟨3 * i.val + 1, by have := i.isLt; omega⟩,
    ⟨3 * i.val + 2, by have := i.isLt; omega⟩,
    ⟨3 * j.val, by have := j.isLt; omega⟩,
    ⟨3 * j.val + 1, by have := j.isLt; omega⟩,
    ⟨3 * j.val + 2, by have := j.isLt; omega⟩]

/-- The beam-validation/assembly loop of `simulate_structure` (lines
91-107): for each beam in order, membership of both endpoint ids, then
`_element_stiffness` (which raises on zero length); the first failure
aborts the whole call.  Collects the element descriptors. -/
noncomputable def checkBeamsFrame (nodes : List NodeInput) :
    List BeamInput → Except FrameError (List (ElemDesc nodes.length))
  | [] => .ok []
  | b :: rest =>
    match nodeIdx nodes b.node_start, nodeIdx nodes b.node_end with
    | some i, some j =>
      match _element_stiffness b.E b.A b.I (nodes.get i).x (nodes.get i).y
          (nodes.get j).x (nodes.get j).y with
      | .error e => .error e
      | .ok (ke, _, _, _) =>
        match checkBeamsFrame nodes rest with
        | .error e => .error e
        | .ok ds => .ok (⟨b, i, j, ke⟩ :: ds)
    | _, _ => .error (.unknownNodeBeam b.id)

/-- Scatter one element's global 6×6 contribution into the `3n × 3n`
global stiffness matrix at the DOFs of its two endpoints (the `+=`
double loop of lines 102-106). -/
noncomputable def addElem (n : ℕ) (K : Matrix (Fin (3 * n)) (Fin (3 * n)) ℝ)
    (d : ElemDesc n) : Matrix (Fin (3 * n)) (Fin (3 * n)) ℝ :=
  fun p q => K p q + ∑ a : Fin 6, ∑ b : Fin 6,
    if p = dofMap n d.i d.j a ∧ q = dofMap n d.i d.j b then d.ke a b else 0

/-- The assembled global stiffness matrix (direct-stiffness superposition
over the element list). -/
noncomputable def scatterK (n : ℕ) (ds : List (ElemDesc n)) :
    Matrix (Fin (3 * n)) (Fin (3 * n)) ℝ :=
  ds.foldl (addElem n) 0

/-- The load-validation loop of `simulate_structure` (lines 110-117):
each load's node id must resolve; pairs each load with its node index. -/
def checkLoads (nodes : List NodeInput) :
    List LoadInput → Except FrameError (List (Fin nodes.length × LoadInput))
  | [] => .ok []
  | ld :: rest =>
    match nodeIdx nodes ld.node_id with
    | some i =>
      match checkLoads nodes rest with
      | .error e => .error e
      | .ok ls => .ok ((i, ld) :: ls)
    | none => .error (.unknownNodeLoad ld.node_id)

/-- The assembled global load vector: `Fx`, `Fy`, `Moment` of each load
accumulate additively into the three DOF rows of its target node. -/
def loadVec (n : ℕ) (ls : List (Fin n × LoadInput)) : Fin (3 * n) → ℝ :=
  ls.foldl (fun F il => fun p =>
    F p + (if (p : ℕ) = 3 * il.1.val then il.2.Fx else 0)
        + (if (p : ℕ) = 3 * il.1.val + 1 then il.2.Fy else 0)
        + (if (p : ℕ) = 3 * il.1.val + 2 then il.2.Moment else 0)) 0

/-- Whether global DOF `p` is constrained (lines 120-127): some node's
flags, mapped through `node_index[n.id]`, mark `p`. -/
def isConstrained (nodes : List NodeInput) (p : Fin (3 * nodes.length)) : Bool :=
  nodes.any fun nd =>
    match nodeIdx nodes nd.id, nd.constraints with
    | some i, some c =>
        (c.fix_x && decide ((p : ℕ) = 3 * i.val))
        || (c.fix_y && decide ((p : ℕ) = 3 * i.val + 1))
        || (c.fix_rotation && decide ((p : ℕ) = 3 * i.val + 2))
    | _, _ => false

/-- The free-DOF list, in ascending index order
(`sorted(list(all_dofs - constrained_dofs))`). -/
def freeDofs (nodes : List NodeInput) : List (Fin (3 * nodes.length)) :=
  (List.finRange (3 * nodes.length)).filter fun p => !(isConstrained nodes p)

/-- A node's displacement-result row (lines 154-165): read the three DOF
entries of the full displacement vector at `node_index[n.id]`.  A node
list entry always resolves, so the `none` branch is unreachable. -/
def nodeResultOf (nodes : List NodeInput) (U : Fin (3 * nodes.length) → ℝ)
    (nd : NodeInput) : NodeResult :=
  match nodeIdx nodes nd.id with
  | some i =>
    ⟨nd.id, U ⟨3 * i.val, by have := i.isLt; omega⟩,
      U ⟨3 * i.val + 1, by have := i.isLt; omega⟩,
      U ⟨3 * i.val + 2, by have := i.isLt; omega⟩⟩
  | none => ⟨nd.id, 0, 0, 0⟩

/-- The internal-force recovery loop (lines 168-203): recompute the
element stiffness and transformation, rotate the element's global
displacements into local coordinates, multiply by the local stiffness
`T k_glob Tᵀ`, and report start-end values as-is and end-end values
negated. -/
noncomputable def recoverForces (nodes : List NodeInput)
    (U : Fin (3 * nodes.length) → ℝ) :
    List (ElemDesc nodes.length) → Except FrameError (List BeamInternalForce)
  | [] => .ok []
  | d :: rest =>
    match _element_stiffness d.beam.E d.beam.A d.beam.I
        (nodes.get d.i).x (nodes.get d.i).y (nodes.get d.j).x (nodes.get d.j).y with
    | .error e => .error e
    | .ok (kg, _L, c, s) =>
      let T := Tmat c s
      let kl := T * kg * Tᵀ
      let uel : Fin 6 → ℝ := fun a => U (dofMap nodes.length d.i d.j a)
      let ul := T *ᵥ uel
      let fl := kl *ᵥ ul
      match recoverForces nodes U rest with
      | .error e => .error e
      | .ok fs => .ok (⟨d.beam.id, fl 0, fl 1, -(fl 4), fl 2, -(fl 5)⟩ :: fs)

/-- The reduced solve of `simulate_structure` (lines 137-151): extract the
free×free submatrix and free load subvector, solve (raising the
instability error on a singular reduced matrix), and scatter the solution
back into the full displacement vector, constrained DOFs staying zero. -/
noncomputable def frameSolve (nodes : List NodeInput)
    (K : Matrix (Fin (3 * nodes.length)) (Fin (3 * nodes.length)) ℝ)
    (F : Fin (3 * nodes.length) → ℝ) (free : List (Fin (3 * nodes.length))) :
    Except FrameError (Fin (3 * nodes.length) → ℝ) :=
  let Kff : Matrix (Fin free.length) (Fin free.length) ℝ :=
    K.submatrix (fun t => free.get t) (fun t => free.get t)
  let Ff : Fin free.length → ℝ := fun t => F (free.get t)
  if Kff.det = 0 then .error .singular
  else
    let Uf := Kff⁻¹ *ᵥ Ff
    .ok (fun p => ∑ t : Fin free.length, if free.get t = p then Uf t else 0)

/-- `simulation.simulate_structure`: the full frame path. -/
noncomputable def simulate_structure (inp : SimulationInput) :
    Except FrameError SimulationResult :=
  let nodes := inp.nodes
  let beams := inp.beams
  let loads := inp.loads
  if nodes.length = 0 then .ok ⟨[], []⟩
  else
    match checkBeamsFrame nodes beams with
    | .error e => .error e
    | .ok ds =>
      match checkLoads nodes loads with
      | .error e => .error e
      | .ok ls =>
        let K := scatterK nodes.length ds
        let F := loadVec nodes.length ls
        let free := freeDofs nodes
        if free.length = 0 then
          .ok ⟨nodes.map fun nd => ⟨nd.id, 0, 0, 0⟩,
               beams.map fun b => ⟨b.id, 0, 0, 0, 0, 0⟩⟩
        else
          match frameSolve nodes K F free with
          | .error e => .error e
          | .ok U =>
            match recoverForces nodes U ds with
            | .error e => .error e
            | .ok bf => .ok ⟨nodes.map (nodeResultOf nodes U), bf⟩

/-- A truss member descriptor: the beam, its resolved endpoint indices
and its direction cosines (the source's `member_nodes`/`member_dirs`;
the length itself is not used after the zero-length check). -/
structure TrussDesc (n : ℕ) where
  beam : BeamInput
  i : Fin n
  j : Fin n
  c : ℝ
  s : ℝ

/-- The reaction DOFs of `solve_truss` (lines 33-39): scanning nodes in
order, a `fix_x` flag contributes an x-reaction, then a `fix_y` flag a
y-reaction; `fix_rotation` is ignored.  `true` marks the x axis. -/
def reactionDofs : (nodes : List NodeInput) → List (Fin nodes.length × Bool)
  | [] => []
  | nd :: rest =>
    ((match nd.constraints with
      | none => []
      | some c =>
        (if c.fix_x then [(⟨0, Nat.succ_pos _⟩, true)] else [])
          ++ (if c.fix_y then [(⟨0, Nat.succ_pos _⟩, false)] else [])) :
        List (Fin (nd :: rest).length × Bool))
      ++ ((reactionDofs rest).map (fun ib => (ib.1.succ, ib.2)) :
        List (Fin (nd :: rest).length × Bool))

/-- The member-validation loop of `solve_truss` (lines 56-71): endpoint
membership, zero-length check, direction cosines. -/
noncomputable def checkBeamsTruss (nodes : List NodeInput) :
    List BeamInput → Except TrussError (List (TrussDesc nodes.length))
  | [] => .ok []
  | b :: rest =>
    match nodeIdx nodes b.node_start, nodeIdx nodes b.node_end with
    | some i, some jn =>
      let dx := (nodes.get jn).x - (nodes.get i).x
      let dy := (nodes.get jn).y - (nodes.get i).y
      let L := Real.sqrt (dx ^ 2 + dy ^ 2)
      if L ≤ 0 then .error .zeroLength
      else
        match checkBeamsTruss nodes rest with
        | .error e => .error e
        | .ok ds => .ok (⟨b, i, jn, dx / L, dy / L⟩ :: ds)
    | _, _ => .error (.unknownNodeBeam b.id)

/-- The load-validation loop of `solve_truss` (lines 75-79): each load's
node id must be a key of `load_map`, i.e. one of the node ids. -/
def checkLoadsTruss (nodes : List NodeInput) :
    List LoadInput → Except TrussError Unit
  | [] => .ok ()
  | ld :: rest =>
    match nodeIdx nodes ld.node_id with
    | some _ => checkLoadsTruss nodes rest
    | none => .error (.unknownNodeLoad ld.node_id)

/-- Total `Fx` of the loads targeting node id `nid` (the `load_map`
accumulation). -/
def sumFx (loads : List LoadInput) (nid : String) : ℝ :=
  ((loads.filter fun ld => ld.node_id = nid).map LoadInput.Fx).sum

/-- Total `Fy` of the loads targeting node id `nid`. -/
def sumFy (loads : List LoadInput) (nid : String) : ℝ :=
  ((loads.filter fun ld => ld.node_id = nid).map LoadInput.Fy).sum

/-- The equilibrium right-hand side (lines 100-104): row `2i` holds the
negated total `Fx` on node `i`, row `2i+1` the negated total `Fy`. -/
def trussRhs (nodes : List NodeInput) (loads : List LoadInput) :
    Fin (2 * nodes.length) → ℝ :=
  fun p =>
    let nd := nodes.get ⟨p.val / 2, by have := p.isLt; omega⟩
    if p.val % 2 = 0 then -(sumFx loads nd.id) else -(sumFy loads nd.id)

/-- The joint-equilibrium matrix (lines 81-98): column `q < m` is member
`q`'s tension direction (`+c, +s` on the start node's rows, `-c, -s` on
the end node's rows); column `m + k` is reaction `k`'s unit coefficient.
On the solved path `m + r = 2j`, so every column is one of the two kinds
and the final catch-all row of zeros is never reached. -/
noncomputable def trussMatrix (n : ℕ) (ds : List (TrussDesc n))
    (rs : List (Fin n × Bool)) : Matrix (Fin (2 * n)) (Fin (2 * n)) ℝ :=
  fun p q =>
    if hq : q.val < ds.length then
      let d := ds.get ⟨q.val, hq⟩
      (if p.val = 2 * d.i.val then d.c else 0)
        + (if p.val = 2 * d.j.val then -d.c else 0)
        + (if p.val = 2 * d.i.val + 1 then d.s else 0)
        + (if p.val = 2 * d.j.val + 1 then -d.s else 0)
    else if hq2 : q.val - ds.length < rs.length then
      let rb := rs.get ⟨q.val - ds.length, hq2⟩
      if rb.2 then (if p.val = 2 * rb.1.val then 1 else 0)
      else (if p.val = 2 * rb.1.val + 1 then 1 else 0)
    else 0

/-- The first `m` solution entries paired with the beams in input order
(`zip(beams, member_forces)`, lines 117-127); shear/moment fields are
zero.  On the solved path every index `k < m` satisfies `k < 2j`. -/
def trussInternal (n : ℕ) (x : Fin (2 * n) → ℝ) :
    List BeamInput → ℕ → List BeamInternalForce
  | [], _ => []
  | b :: rest, k =>
    ⟨b.id, if h : k < 2 * n then x ⟨k, h⟩ else 0, 0, 0, 0, 0⟩
      :: trussInternal n x rest (k + 1)

/-- `truss_solver.solve_truss`: the full truss path. -/
noncomputable def solve_truss (inp : SimulationInput) :
    Except TrussError SimulationResult :=
  let nodes := inp.nodes
  let beams := inp.beams
  let loads := inp.loads
  if nodes.length = 0 then .ok ⟨[], []⟩
  else
    let rs := reactionDofs nodes
    let m := beams.length
    let r := rs.length
    if m + r = 2 * nodes.length then
      match checkBeamsTruss nodes beams with
      | .error e => .error e
      | .ok ds =>
        match checkLoadsTruss nodes loads with
        | .error e => .error e
        | .ok _ =>
          let A := trussMatrix nodes.length ds rs
          let b := trussRhs nodes loads
          if A.det = 0 then .error .singular
          else
            let x := A⁻¹ *ᵥ b
            .ok ⟨nodes.map fun nd => ⟨nd.id, 0, 0, 0⟩,
                 trussInternal nodes.length x beams 0⟩
    else .error (.notDeterminate (m + r) (2 * nodes.length))

/-! ## Helper lemmas -/

/-- The computed length is nonpositive iff the radicand is, i.e. iff the
endpoints coincide exactly (in exact real arithmetic). -/
lemma sqrt_nonpos_iff (x : ℝ) : Real.sqrt x ≤ 0 ↔ x ≤ 0 := by
  constructor
  · intro h
    exact Real.sqrt_eq_zero'.mp (le_antisymm h (Real.sqrt_nonneg x))
  · intro h
    exact le_of_eq (Real.sqrt_eq_zero'.mpr h)

/-- A sum of two real squares is nonpositive iff both vanish. -/
lemma sq_add_sq_nonpos (a b : ℝ) : a ^ 2 + b ^ 2 ≤ 0 ↔ a = 0 ∧ b = 0 := by
  constructor
  · intro h
    constructor <;> nlinarith [sq_nonneg a, sq_nonneg b]
  · rintro ⟨ha, hb⟩
    simp [ha, hb]

/-- `_element_stiffness` succeeds exactly on spatially distinct endpoints,
returning the transformed stiffness and the geometry data. -/
lemma element_stiffness_ok (E A I x1 y1 x2 y2 : ℝ)
    (h : ¬((x2 - x1) ^ 2 + (y2 - y1) ^ 2 ≤ 0)) :
    _element_stiffness E A I x1 y1 x2 y2 =
      .ok ((Tmat ((x2 - x1) / Real.sqrt ((x2 - x1) ^ 2 + (y2 - y1) ^ 2))
              ((y2 - y1) / Real.sqrt ((x2 - x1) ^ 2 + (y2 - y1) ^ 2)))ᵀ
            * kLocal E A I (Real.sqrt ((x2 - x1) ^ 2 + (y2 - y1) ^ 2))
            * Tmat ((x2 - x1) / Real.sqrt ((x2 - x1) ^ 2 + (y2 - y1) ^ 2))
              ((y2 - y1) / Real.sqrt ((x2 - x1) ^ 2 + (y2 - y1) ^ 2)),
          Real.sqrt ((x2 - x1) ^ 2 + (y2 - y1) ^ 2),
          (x2 - x1) / Real.sqrt ((x2 - x1) ^ 2 + (y2 - y1) ^ 2),
          (y2 - y1) / Real.sqrt ((x2 - x1) ^ 2 + (y2 - y1) ^ 2)) := by
  rw [_element_stiffness]
  rw [if_neg]
  intro hc
  exact h ((sqrt_nonpos_iff _).mp hc)

/-- `_element_stiffness` raises the zero-length error exactly on
coincident endpoints. -/
lemma element_stiffness_err (E A I x1 y1 x2 y2 : ℝ)
    (h : (x2 - x1) ^ 2 + (y2 - y1) ^ 2 ≤ 0) :
    _element_stiffness E A I x1 y1 x2 y2 = .error .zeroLength := by
  rw [_element_stiffness]
  rw [if_pos]
  exact (sqrt_nonpos_iff _).mpr h

/-- The identity transformation for a member lying along the +x axis. -/
lemma Tmat_one : Tmat 1 0 = 1 := by
  ext i j
  fin_cases i <;> fin_cases j <;> first | rfl | exact neg_zero

/-- Along the +x axis (`(0,0) → (L,0)` with `L > 0`) the element routine
returns the untransformed local stiffness with `c = 1`, `s = 0`. -/
lemma element_stiffness_horiz (E A I L : ℝ) (hL : 0 < L) :
    _element_stiffness E A I 0 0 L 0 = .ok (kLocal E A I L, L, 1, 0) := by
  have hs : Real.sqrt ((L - 0) ^ 2 + (0 - 0) ^ 2) = L := by
    rw [show (L - 0 : ℝ) ^ 2 + (0 - 0) ^ 2 = L ^ 2 by ring]
    exact Real.sqrt_sq hL.le
  have h : ¬((L - 0 : ℝ) ^ 2 + (0 - 0) ^ 2 ≤ 0) := by
    rw [show (L - 0 : ℝ) ^ 2 + (0 - 0) ^ 2 = L ^ 2 by ring]
    push_neg
    positivity
  rw [element_stiffness_ok E A I 0 0 L 0 h]
  rw [hs]
  rw [show (L - 0 : ℝ) / L = 1 by field_simp]
  rw [show (0 - 0 : ℝ) / L = 0 by simp]
  rw [Tmat_one]
  simp

/-- If the square system has a solution and the matrix is nonsingular,
the modelled `np.linalg.solve` result is that solution. -/
lemma inv_mulVec_eq {n : ℕ} (K : Matrix (Fin n) (Fin n) ℝ) (u F : Fin n → ℝ)
    (hdet : K.det ≠ 0) (hu : K *ᵥ u = F) : K⁻¹ *ᵥ F = u := by
  rw [← hu, Matrix.mulVec_mulVec, Matrix.nonsing_inv_mul K (isUnit_iff_ne_zero.mpr hdet),
    Matrix.one_mulVec]

/-- Missing companion of `Matrix.cons_val_four` for index `5`. -/
lemma cons_val_five {α : Type*} {m : ℕ} (x : α)
    (u : Fin (m + 1 + 1 + 1 + 1 + 1) → α) :
    Matrix.vecCons x u 5 =
      Matrix.vecHead (Matrix.vecTail (Matrix.vecTail (Matrix.vecTail (Matrix.vecTail u)))) :=
  rfl

/-- Evaluation of `frameSolve` on the singular branch. -/
lemma frameSolve_eq_err (nodes : List NodeInput)
    (K : Matrix (Fin (3 * nodes.length)) (Fin (3 * nodes.length)) ℝ)
    (F : Fin (3 * nodes.length) → ℝ) (free : List (Fin (3 * nodes.length)))
    (hdet : (K.submatrix (fun t => free.get t) (fun t => free.get t)).det = 0) :
    frameSolve nodes K F free = .error .singular := by
  simp only [frameSolve]
  rw [if_pos hdet]

/-- Evaluation of `frameSolve` on the nonsingular branch, through a clean
re-typing of the reduced system as a `k × k` matrix (`k` the number of
free DOFs, enumerated by `g`) together with a verified solution vector
`v`. -/
lemma frameSolve_eq_ok (nodes : List NodeInput)
    (K : Matrix (Fin (3 * nodes.length)) (Fin (3 * nodes.length)) ℝ)
    (F : Fin (3 * nodes.length) → ℝ) (free : List (Fin (3 * nodes.length)))
    (k : ℕ) (hk : free.length = k) (g : Fin k → Fin (3 * nodes.length))
    (hg : ∀ t : Fin k, free.get (Fin.cast hk.symm t) = g t)
    (Kc : Matrix (Fin k) (Fin k) ℝ) (Fc v : Fin k → ℝ)
    (hKc : ∀ t u : Fin k, K (g t) (g u) = Kc t u)
    (hFc : ∀ t : Fin k, F (g t) = Fc t)
    (hdet : Kc.det ≠ 0) (hv : Kc *ᵥ v = Fc) :
    frameSolve nodes K F free =
      .ok (fun p => ∑ t : Fin k, if g t = p then v t else 0) := by
  subst hk
  have hget : ∀ t : Fin free.length, free.get t = g t := by
    intro t
    have := hg t
    rwa [show Fin.cast (Eq.symm rfl) t = t from rfl] at this
  have hKff : K.submatrix (fun t => free.get t) (fun t => free.get t) = Kc := by
    ext t u
    rw [Matrix.submatrix_apply, hget, hget, hKc]
  have hFf : (fun t => F (free.get t)) = Fc := by
    funext t
    rw [hget, hFc]
  simp only [frameSolve, hKff, hFf]
  rw [if_neg hdet]
  rw [inv_mulVec_eq Kc v Fc hdet hv]
  refine congrArg _ ?_
  funext p
  exact Finset.sum_congr rfl fun t _ => by rw [hget]

/-! ## The two-node cantilever family (§8 test scenarios). -/

/-- Cantilever layout: fully fixed node `n1` at the origin, free node `n2`
at `(L, 0)`, one member `b1`, one load at `n2`. -/
noncomputable def cantInput (L E I A Fx Fy M : ℝ) : SimulationInput :=
  ⟨[⟨"n1", 0, 0, some ⟨true, true, true⟩⟩, ⟨"n2", L, 0, none⟩],
   [⟨"b1", "n1", "n2", E, I, A⟩],
   [⟨"n2", Fx, Fy, M⟩], "frame"⟩

/-- The free-DOF list of the cantilever is the three DOFs of `n2`. -/
lemma cant_free (L E I A Fx Fy M : ℝ) :
    freeDofs (cantInput L E I A Fx Fy M).nodes =
      [⟨3, by simp [cantInput]⟩, ⟨4, by simp [cantInput]⟩, ⟨5, by simp [cantInput]⟩] := rfl

/-- The reduced 3×3 cantilever stiffness over the free DOFs of node
`n2`, as assembled by the solver. -/
noncomputable def cantKc (E A I L : ℝ) : Matrix (Fin 3) (Fin 3) ℝ :=
  !![E * A / L, 0, 0;
     0, 12 * (E * I) / L ^ 3, -6 * (E * I) / L ^ 2;
     0, -6 * (E * I) / L ^ 2, 4 * (E * I) / L]

/-- The analytic cantilever tip solution for a general tip load
`(Fx, Fy, M)`. -/
noncomputable def cantV (L E I A Fx Fy M : ℝ) : Fin 3 → ℝ :=
  ![Fx * L / (E * A),
    Fy * L ^ 3 / (3 * (E * I)) + M * L ^ 2 / (2 * (E * I)),
    Fy * L ^ 2 / (2 * (E * I)) + M * L / (E * I)]

/-- The full 6-DOF displacement vector of the cantilever solution. -/
noncomputable def cantU (L E I A Fx Fy M : ℝ) : Fin 6 → ℝ :=
  ![0, 0, 0, Fx * L / (E * A),
    Fy * L ^ 3 / (3 * (E * I)) + M * L ^ 2 / (2 * (E * I)),
    Fy * L ^ 2 / (2 * (E * I)) + M * L / (E * I)]

/-- The reduced free×free block of the assembled cantilever stiffness. -/
lemma cant_hKc (L E I A Fx Fy M : ℝ) : ∀ t u : Fin 3,
    scatterK (cantInput L E I A Fx Fy M).nodes.length
      [⟨⟨"b1", "n1", "n2", E, I, A⟩, ⟨0, by simp [cantInput]⟩, ⟨1, by simp [cantInput]⟩,
        kLocal E A I L⟩]
      (![⟨3, by simp [cantInput]⟩, ⟨4, by simp [cantInput]⟩, ⟨5, by simp [cantInput]⟩] t)
      (![⟨3, by simp [cantInput]⟩, ⟨4, by simp [cantInput]⟩, ⟨5, by simp [cantInput]⟩] u) =
      cantKc E A I L t u := by
  intro t u
  fin_cases t <;> fin_cases u <;>
    simp [scatterK, addElem, dofMap, Fin.sum_univ_six, kLocal, cantKc, cons_val_five,
      Matrix.vecHead, Matrix.vecTail, Fin.ext_iff] <;>
    ring

/-- The reduced load vector of the cantilever. -/
lemma cant_hFc (L E I A Fx Fy M : ℝ) : ∀ t : Fin 3,
    loadVec (cantInput L E I A Fx Fy M).nodes.length
      [(⟨1, by simp [cantInput]⟩, ⟨"n2", Fx, Fy, M⟩)]
      (![⟨3, by simp [cantInput]⟩, ⟨4, by simp [cantInput]⟩, ⟨5, by simp [cantInput]⟩] t) =
      ![Fx, Fy, M] t := by
  intro t
  fin_cases t <;> simp [loadVec]

/-- The reduced cantilever stiffness is nonsingular. -/
lemma cant_hdet (L E I A : ℝ) (hL : 0 < L) (hE : 0 < E) (hI : 0 < I) (hA : 0 < A) :
    (cantKc E A I L).det ≠ 0 := by
  have h : (cantKc E A I L).det = 12 * E ^ 3 * A * I ^ 2 / L ^ 5 := by
    simp [cantKc, Matrix.det_fin_three]
    field_simp
    ring
  rw [h]
  positivity

/-- The analytic tip solution solves the reduced cantilever system. -/
lemma cant_hv (L E I A Fx Fy M : ℝ) (hL : 0 < L) (hE : 0 < E) (hI : 0 < I) (hA : 0 < A) :
    cantKc E A I L *ᵥ cantV L E I A Fx Fy M = ![Fx, Fy, M] := by
  have hLne : L ≠ 0 := ne_of_gt hL
  have hEne : E ≠ 0 := ne_of_gt hE
  have hIne : I ≠ 0 := ne_of_gt hI
  have hAne : A ≠ 0 := ne_of_gt hA
  funext t
  fin_cases t <;>
    (simp [cantKc, cantV, Matrix.mulVec, dotProduct, Fin.sum_univ_three]
     field_simp
     ring)

/-- Beam validation/assembly on the cantilever input. -/
lemma cant_checkBeams (L E I A Fx Fy M : ℝ) (hL : 0 < L) :
    checkBeamsFrame (cantInput L E I A Fx Fy M).nodes (cantInput L E I A Fx Fy M).beams =
      .ok [⟨⟨"b1", "n1", "n2", E, I, A⟩, ⟨0, by simp [cantInput]⟩, ⟨1, by simp [cantInput]⟩, kLocal E A I L⟩] := by
  have h1 : nodeIdx (cantInput L E I A Fx Fy M).nodes "n1" = some ⟨0, by simp [cantInput]⟩ := rfl
  have h2 : nodeIdx (cantInput L E I A Fx Fy M).nodes "n2" = some ⟨1, by simp [cantInput]⟩ := rfl
  have hget0 : (cantInput L E I A Fx Fy M).nodes.get ⟨0, by simp [cantInput]⟩ =
    ⟨"n1", 0, 0, some ⟨true, true, true⟩⟩ := rfl
  have hget1 : (cantInput L E I A Fx Fy M).nodes.get ⟨1, by simp [cantInput]⟩ =
    ⟨"n2", L, 0, none⟩ := rfl
  have hel := element_stiffness_horiz E A I L hL
  simp only [checkBeamsFrame, h1, h2, hget0, hget1, hel]

/-- The scattered-back full displacement vector of the cantilever. -/
lemma cant_Ufun (L E I A Fx Fy M : ℝ) :
    (fun p : Fin (3 * (cantInput L E I A Fx Fy M).nodes.length) =>
      ∑ t : Fin 3,
        if (![⟨3, by simp [cantInput]⟩, ⟨4, by simp [cantInput]⟩, ⟨5, by simp [cantInput]⟩] :
            Fin 3 → Fin (3 * (cantInput L E I A Fx Fy M).nodes.length)) t = p
        then cantV L E I A Fx Fy M t else 0) = cantU L E I A Fx Fy M := by
  funext p
  obtain ⟨pv, hp⟩ := p
  have hp6 : pv < 6 := by simpa [cantInput] using hp
  interval_cases pv <;>
    simp [Fin.sum_univ_three, cantV, cantU, Fin.ext_iff, Matrix.vecHead, Matrix.vecTail]

/-- Internal force recovery on the cantilever solution. -/
lemma cant_recover (L E I A Fx Fy M : ℝ) (hL : 0 < L) (hE : 0 < E) (hI : 0 < I)
    (hA : 0 < A) :
    recoverForces (cantInput L E I A Fx Fy M).nodes (cantU L E I A Fx Fy M)
      [⟨⟨"b1", "n1", "n2", E, I, A⟩, ⟨0, by simp [cantInput]⟩, ⟨1, by simp [cantInput]⟩,
        kLocal E A I L⟩] =
      .ok [⟨"b1", -Fx, -Fy, -Fy, -(Fy * L) - M, -M⟩] := by
  have hLne : L ≠ 0 := ne_of_gt hL
  have hEne : E ≠ 0 := ne_of_gt hE
  have hIne : I ≠ 0 := ne_of_gt hI
  have hAne : A ≠ 0 := ne_of_gt hA
  have hget0 : (cantInput L E I A Fx Fy M).nodes.get ⟨0, by simp [cantInput]⟩ =
    ⟨"n1", 0, 0, some ⟨true, true, true⟩⟩ := rfl
  have hget1 : (cantInput L E I A Fx Fy M).nodes.get ⟨1, by simp [cantInput]⟩ =
    ⟨"n2", L, 0, none⟩ := rfl
  have hel := element_stiffness_horiz E A I L hL
  simp only [recoverForces, hget0, hget1, hel, Tmat_one, Matrix.transpose_one,
    Matrix.one_mul, Matrix.mul_one, Matrix.one_mulVec]
  simp [Matrix.mulVec, dotProduct, Fin.sum_univ_six, kLocal, dofMap, cantU, cons_val_five,
    Matrix.vecHead, Matrix.vecTail, Fin.ext_iff]
  refine ⟨?_, ?_, ?_, ?_, ?_⟩ <;> (field_simp; ring)

/-- Full symbolic evaluation of the frame solver on the cantilever
family: exact tip displacements and internal forces. -/
theorem cantilever_eval (L E I A Fx Fy M : ℝ) (hL : 0 < L) (hE : 0 < E) (hI : 0 < I)
    (hA : 0 < A) :
    simulate_structure (cantInput L E I A Fx Fy M) =
      .ok ⟨[⟨"n1", 0, 0, 0⟩,
            ⟨"n2", Fx * L / (E * A),
              Fy * L ^ 3 / (3 * (E * I)) + M * L ^ 2 / (2 * (E * I)),
              Fy * L ^ 2 / (2 * (E * I)) + M * L / (E * I)⟩],
           [⟨"b1", -Fx, -Fy, -Fy, -(Fy * L) - M, -M⟩]⟩ := by
  have hcb := cant_checkBeams L E I A Fx Fy M hL
  have hcl : checkLoads (cantInput L E I A Fx Fy M).nodes (cantInput L E I A Fx Fy M).loads =
      .ok [(⟨1, by simp [cantInput]⟩, ⟨"n2", Fx, Fy, M⟩)] := rfl
  have hc1 : ((cantInput L E I A Fx Fy M).nodes.length = 0) = False := by
    simp [cantInput]
  have hc2 : ((freeDofs (cantInput L E I A Fx Fy M).nodes).length = 0) = False := by
    rw [cant_free L E I A Fx Fy M]
    simp
  have hsolve := frameSolve_eq_ok (cantInput L E I A Fx Fy M).nodes
    (scatterK (cantInput L E I A Fx Fy M).nodes.length
      [⟨⟨"b1", "n1", "n2", E, I, A⟩, ⟨0, by simp [cantInput]⟩, ⟨1, by simp [cantInput]⟩,
        kLocal E A I L⟩])
    (loadVec (cantInput L E I A Fx Fy M).nodes.length
      [(⟨1, by simp [cantInput]⟩, ⟨"n2", Fx, Fy, M⟩)])
    (freeDofs (cantInput L E I A Fx Fy M).nodes)
    3 rfl
    ![⟨3, by simp [cantInput]⟩, ⟨4, by simp [cantInput]⟩, ⟨5, by simp [cantInput]⟩]
    (by intro t; fin_cases t <;> rfl)
    (cantKc E A I L) ![Fx, Fy, M] (cantV L E I A Fx Fy M)
    (cant_hKc L E I A Fx Fy M) (cant_hFc L E I A Fx Fy M)
    (cant_hdet L E I A hL hE hI hA) (cant_hv L E I A Fx Fy M hL hE hI hA)
  have hrec := cant_recover L E I A Fx Fy M hL hE hI hA
  have hmap : List.map
      (nodeResultOf (cantInput L E I A Fx Fy M).nodes (cantU L E I A Fx Fy M))
      (cantInput L E I A Fx Fy M).nodes =
      [⟨"n1", 0, 0, 0⟩,
       ⟨"n2", Fx * L / (E * A),
         Fy * L ^ 3 / (3 * (E * I)) + M * L ^ 2 / (2 * (E * I)),
         Fy * L ^ 2 / (2 * (E * I)) + M * L / (E * I)⟩] := rfl
  simp only [simulate_structure, hc1, hc2, if_false, hcb, hcl, hsolve, cant_Ufun, hrec, hmap]

/-! ## Claim C1 -/

/-- C1: on the cantilever (fully fixed node at the origin, free node at
`(L,0)`, one member with positive `E`, `I`, `A`, a single load with
`Fx = 0`, `Moment = 0` and transverse force `P`), the frame path returns
free-node displacements with `uy = P·L³/(3EI)` and
`rotation = P·L²/(2EI)` within 0.1 % relative tolerance (here: exactly),
and the member's reported axial force is (exactly) zero. -/
theorem C1_cantilever_tip_deflection (L E I A P : ℝ)
    (hL : 0 < L) (hE : 0 < E) (hI : 0 < I) (hA : 0 < A) :
    ∃ uy2 th2 axial,
      simulate_structure (cantInput L E I A 0 P 0) =
        .ok ⟨[⟨"n1", 0, 0, 0⟩, ⟨"n2", 0, uy2, th2⟩],
             [⟨"b1", axial, -P, -P, -(P * L), 0⟩]⟩ ∧
      |uy2 - P * L ^ 3 / (3 * (E * I))| ≤ |P * L ^ 3 / (3 * (E * I))| / 1000 ∧
      |th2 - P * L ^ 2 / (2 * (E * I))| ≤ |P * L ^ 2 / (2 * (E * I))| / 1000 ∧
      axial = 0 := by
  refine ⟨P * L ^ 3 / (3 * (E * I)), P * L ^ 2 / (2 * (E * I)), 0, ?_, ?_, ?_, rfl⟩
  · rw [cantilever_eval L E I A 0 P 0 hL hE hI hA]
    norm_num
  · simp only [sub_self, abs_zero]
    positivity
  · simp only [sub_self, abs_zero]
    positivity

/-- Witness for C1 at `L = E = I = A = P = 1`. -/
theorem C1_witness :
    (0 : ℝ) < 1 ∧
    (∃ uy2 th2 axial,
      simulate_structure (cantInput 1 1 1 1 0 1 0) =
        .ok ⟨[⟨"n1", 0, 0, 0⟩, ⟨"n2", 0, uy2, th2⟩],
             [⟨"b1", axial, -1, -1, -(1 * 1), 0⟩]⟩ ∧
      |uy2 - 1 * 1 ^ 3 / (3 * (1 * 1))| ≤ |1 * 1 ^ 3 / (3 * (1 * 1))| / 1000 ∧
      |th2 - 1 * 1 ^ 2 / (2 * (1 * 1))| ≤ |1 * 1 ^ 2 / (2 * (1 * 1))| / 1000 ∧
      axial = 0) :=
  ⟨by norm_num,
   C1_cantilever_tip_deflection 1 1 1 1 1 (by norm_num) (by norm_num) (by norm_num)
     (by norm_num)⟩

/-! ## Claim C2 -/

/-- C2 (code bug): at the exact input of the repository's own
`test_axial_tension_force` (`L = 2`, `E = 200e9`, `I = 1e-8`, `A = 2e-4`,
pure axial tension `P = 1000` at the free node), the code reports the
member's axial force as `-1000`: the local axial end force at the start
end of a stretched member is negative, so the reported value is
compression-negative, contradicting the test's assertions
`bar_force ≈ P` and `bar_force > 0` ("tension positive") and the spec's
tension-positive convention. -/
theorem C2_axial_sign_at_test_input :
    simulate_structure (cantInput 2 (2 * 10 ^ 11) (1 / 10 ^ 8) (2 / 10 ^ 4) 1000 0 0) =
      .ok ⟨[⟨"n1", 0, 0, 0⟩, ⟨"n2", 1 / 20000, 0, 0⟩],
           [⟨"b1", -1000, 0, 0, 0, 0⟩]⟩ ∧
    ¬(0 : ℝ) < -1000 ∧
    ¬|(-1000 : ℝ) - 1000| ≤ |(1000 : ℝ)| / 1000 := by
  refine ⟨?_, by norm_num, by rw [abs_of_nonpos (by norm_num)]; norm_num⟩
  rw [cantilever_eval 2 (2 * 10 ^ 11) (1 / 10 ^ 8) (2 / 10 ^ 4) 1000 0 0 (by norm_num)
    (by norm_num) (by norm_num) (by norm_num)]
  norm_num

/-! ## The symmetric triangle truss family (§8). -/

/-- Triangle truss: `A(0,0)` fixed in x and y, `B(L,0)` fixed in y only,
`C(L/2,h)` free; members `AB`, `AC`, `BC`; downward load `W > 0` at the
apex `C`. -/
noncomputable def triInput (L h W : ℝ) : SimulationInput :=
  ⟨[⟨"A", 0, 0, some ⟨true, true, false⟩⟩,
    ⟨"B", L, 0, some ⟨false, true, false⟩⟩,
    ⟨"C", L / 2, h, none⟩],
   [⟨"AB", "A", "B", 1, 1, 1⟩, ⟨"AC", "A", "C", 1, 1, 1⟩, ⟨"BC", "B", "C", 1, 1, 1⟩],
   [⟨"C", 0, -W, 0⟩], "truss"⟩

/-- The diagonal length `hypot (L/2) h` of the triangle. -/
noncomputable def triS (L h : ℝ) : ℝ := Real.sqrt ((L / 2) ^ 2 + h ^ 2)

/-- The assembled joint-equilibrium matrix of the triangle truss
(member columns `AB`, `AC`, `BC`, then reaction columns `Ax`, `Ay`,
`By`). -/
noncomputable def triA (L h : ℝ) : Matrix (Fin 6) (Fin 6) ℝ :=
  !![1, (L / 2) / triS L h, 0, 1, 0, 0;
     0, h / triS L h, 0, 0, 1, 0;
     -1, 0, -((L / 2) / triS L h), 0, 0, 0;
     0, 0, h / triS L h, 0, 0, 1;
     0, -((L / 2) / triS L h), (L / 2) / triS L h, 0, 0, 0;
     0, -(h / triS L h), -(h / triS L h), 0, 0, 0]

/-- The method-of-joints solution of the triangle truss: bottom chord in
tension, diagonals in compression, reactions `(0, W/2, W/2)`. -/
noncomputable def triX (L h W : ℝ) : Fin 6 → ℝ :=
  ![W * L / (4 * h), -(W * triS L h) / (2 * h), -(W * triS L h) / (2 * h),
    0, W / 2, W / 2]

/-- Member validation of the triangle truss and its direction cosines. -/
lemma tri_checkBeams (L h W : ℝ) (hL : 0 < L) (hh : 0 < h) :
    checkBeamsTruss (triInput L h W).nodes (triInput L h W).beams =
      .ok [⟨⟨"AB", "A", "B", 1, 1, 1⟩, ⟨0, by simp [triInput]⟩, ⟨1, by simp [triInput]⟩, 1, 0⟩,
           ⟨⟨"AC", "A", "C", 1, 1, 1⟩, ⟨0, by simp [triInput]⟩, ⟨2, by simp [triInput]⟩,
             (L / 2) / triS L h, h / triS L h⟩,
           ⟨⟨"BC", "B", "C", 1, 1, 1⟩, ⟨1, by simp [triInput]⟩, ⟨2, by simp [triInput]⟩,
             -(L / 2) / triS L h, h / triS L h⟩] := by
  have hiA : nodeIdx (triInput L h W).nodes "A" = some ⟨0, by simp [triInput]⟩ := rfl
  have hiB : nodeIdx (triInput L h W).nodes "B" = some ⟨1, by simp [triInput]⟩ := rfl
  have hiC : nodeIdx (triInput L h W).nodes "C" = some ⟨2, by simp [triInput]⟩ := rfl
  have hgA : (triInput L h W).nodes.get ⟨0, by simp [triInput]⟩ =
    ⟨"A", 0, 0, some ⟨true, true, false⟩⟩ := rfl
  have hgB : (triInput L h W).nodes.get ⟨1, by simp [triInput]⟩ =
    ⟨"B", L, 0, some ⟨false, true, false⟩⟩ := rfl
  have hgC : (triInput L h W).nodes.get ⟨2, by simp [triInput]⟩ =
    ⟨"C", L / 2, h, none⟩ := rfl
  have hcAB : (Real.sqrt ((L - 0) ^ 2 + ((0 : ℝ) - 0) ^ 2) ≤ 0) = False := by
    rw [show ((L : ℝ) - 0) ^ 2 + ((0 : ℝ) - 0) ^ 2 = L ^ 2 by ring]
    rw [sqrt_nonpos_iff]
    simp only [eq_iff_iff, iff_false]
    push_neg
    positivity
  have hcAC : (Real.sqrt ((L / 2 - 0) ^ 2 + (h - 0) ^ 2) ≤ 0) = False := by
    rw [show (L / 2 - 0) ^ 2 + (h - 0) ^ 2 = (L / 2) ^ 2 + h ^ 2 by ring]
    rw [sqrt_nonpos_iff]
    simp only [eq_iff_iff, iff_false]
    push_neg
    positivity
  have hcBC : (Real.sqrt ((L / 2 - L) ^ 2 + (h - 0) ^ 2) ≤ 0) = False := by
    rw [show (L / 2 - L) ^ 2 + (h - 0) ^ 2 = (L / 2) ^ 2 + h ^ 2 by ring]
    rw [sqrt_nonpos_iff]
    simp only [eq_iff_iff, iff_false]
    push_neg
    positivity
  have hab_c : (L - 0) / Real.sqrt ((L - 0) ^ 2 + ((0 : ℝ) - 0) ^ 2) = 1 := by
    rw [show ((L : ℝ) - 0) ^ 2 + ((0 : ℝ) - 0) ^ 2 = L ^ 2 by ring, Real.sqrt_sq hL.le,
      sub_zero]
    exact div_self (ne_of_gt hL)
  have hab_s : ((0 : ℝ) - 0) / Real.sqrt ((L - 0) ^ 2 + ((0 : ℝ) - 0) ^ 2) = 0 := by
    simp
  have hac_c : (L / 2 - 0) / Real.sqrt ((L / 2 - 0) ^ 2 + (h - 0) ^ 2) =
      (L / 2) / triS L h := by
    rw [triS, show (L / 2 - 0) ^ 2 + (h - 0) ^ 2 = (L / 2) ^ 2 + h ^ 2 by ring, sub_zero]
  have hac_s : (h - 0) / Real.sqrt ((L / 2 - 0) ^ 2 + (h - 0) ^ 2) = h / triS L h := by
    rw [triS, show (L / 2 - 0) ^ 2 + (h - 0) ^ 2 = (L / 2) ^ 2 + h ^ 2 by ring, sub_zero]
  have hbc_c : (L / 2 - L) / Real.sqrt ((L / 2 - L) ^ 2 + (h - 0) ^ 2) =
      -(L / 2) / triS L h := by
    rw [triS, show (L / 2 - L) ^ 2 + (h - 0) ^ 2 = (L / 2) ^ 2 + h ^ 2 by ring,
      show (L / 2 - L : ℝ) = -(L / 2) by ring]
  have hbc_s : (h - 0) / Real.sqrt ((L / 2 - L) ^ 2 + (h - 0) ^ 2) = h / triS L h := by
    rw [triS, show (L / 2 - L) ^ 2 + (h - 0) ^ 2 = (L / 2) ^ 2 + h ^ 2 by ring, sub_zero]
  simp only [checkBeamsTruss, hiA, hiB, hiC, hgA, hgB, hgC, hcAB, hcAC, hcBC, if_false,
    hab_c, hab_s, hac_c, hac_s, hbc_c, hbc_s]

/-- Generic evaluation of the truss solve tail (determinant test, dense
solve, member-force extraction) through a clean `k × k` re-typing of the
equilibrium system together with a verified solution vector `x`. -/
lemma truss_tail_eval (nodes : List NodeInput) (beams : List BeamInput)
    (ds : List (TrussDesc nodes.length)) (rs : List (Fin nodes.length × Bool))
    (b : Fin (2 * nodes.length) → ℝ)
    (k : ℕ) (hk : 2 * nodes.length = k)
    (Ac : Matrix (Fin k) (Fin k) ℝ) (bc x : Fin k → ℝ)
    (hA : ∀ p q : Fin k, trussMatrix nodes.length ds rs
      (Fin.cast hk.symm p) (Fin.cast hk.symm q) = Ac p q)
    (hb : ∀ p : Fin k, b (Fin.cast hk.symm p) = bc p)
    (hdet : Ac.det ≠ 0) (hx : Ac *ᵥ x = bc) :
    (if (trussMatrix nodes.length ds rs).det = 0
      then (.error .singular : Except TrussError SimulationResult)
      else .ok ⟨nodes.map fun nd => ⟨nd.id, 0, 0, 0⟩,
        trussInternal nodes.length ((trussMatrix nodes.length ds rs)⁻¹ *ᵥ b) beams 0⟩) =
    .ok ⟨nodes.map fun nd => ⟨nd.id, 0, 0, 0⟩,
      trussInternal nodes.length (fun p => x (Fin.cast hk p)) beams 0⟩ := by
  subst hk
  have hcast : ∀ p : Fin (2 * nodes.length), Fin.cast (Eq.symm rfl) p = p := fun p => rfl
  have hAeq : trussMatrix nodes.length ds rs = Ac := by
    ext p q
    have h := hA p q
    rwa [hcast, hcast] at h
  have hbeq : b = bc := by
    funext p
    have h := hb p
    rwa [hcast] at h
  rw [hAeq, hbeq, if_neg hdet, inv_mulVec_eq Ac x bc hdet hx]
  rfl

set_option maxHeartbeats 2000000 in
/-- The assembled equilibrium matrix of the triangle truss equals
`triA`, entrywise. -/
lemma tri_matrix (L h W : ℝ) : ∀ p q : Fin 6,
    trussMatrix (triInput L h W).nodes.length
      [⟨⟨"AB", "A", "B", 1, 1, 1⟩, ⟨0, by simp [triInput]⟩, ⟨1, by simp [triInput]⟩, 1, 0⟩,
       ⟨⟨"AC", "A", "C", 1, 1, 1⟩, ⟨0, by simp [triInput]⟩, ⟨2, by simp [triInput]⟩,
         (L / 2) / triS L h, h / triS L h⟩,
       ⟨⟨"BC", "B", "C", 1, 1, 1⟩, ⟨1, by simp [triInput]⟩, ⟨2, by simp [triInput]⟩,
         -(L / 2) / triS L h, h / triS L h⟩]
      (reactionDofs (triInput L h W).nodes)
      (Fin.cast (show (6 : ℕ) = 2 * (triInput L h W).nodes.length from rfl) p)
      (Fin.cast (show (6 : ℕ) = 2 * (triInput L h W).nodes.length from rfl) q) =
      triA L h p q := by
  intro p q
  obtain ⟨pv, hp⟩ := p
  obtain ⟨qv, hq⟩ := q
  interval_cases pv <;> interval_cases qv <;>
    simp [trussMatrix, triA, reactionDofs, triInput, Matrix.vecHead, Matrix.vecTail,
      cons_val_five, Fin.coe_cast, Fin.coe_ofNat_eq_mod] <;>
    ring

/-- The equilibrium right-hand side of the triangle truss, entrywise. -/
lemma tri_rhs (L h W : ℝ) : ∀ p : Fin 6,
    trussRhs (triInput L h W).nodes (triInput L h W).loads
      (Fin.cast (show (6 : ℕ) = 2 * (triInput L h W).nodes.length from rfl) p) =
      ![0, 0, 0, 0, 0, W] p := by
  intro p
  obtain ⟨pv, hp⟩ := p
  interval_cases pv <;>
    simp [trussRhs, triInput, sumFx, sumFy, Matrix.vecHead, Matrix.vecTail,
      cons_val_five, Fin.coe_cast, Fin.coe_ofNat_eq_mod]

/-- `triX` solves the triangle equilibrium system. -/
lemma tri_hv (L h W : ℝ) (hL : 0 < L) (hh : 0 < h) :
    triA L h *ᵥ triX L h W = ![0, 0, 0, 0, 0, W] := by
  have hS : 0 < triS L h := Real.sqrt_pos.mpr (by positivity)
  have hSne : triS L h ≠ 0 := ne_of_gt hS
  have hhne : h ≠ 0 := ne_of_gt hh
  funext p
  fin_cases p <;>
    (simp [triA, triX, Matrix.mulVec, dotProduct, Fin.sum_univ_six, cons_val_five,
       Matrix.vecHead, Matrix.vecTail]
     try field_simp
     try ring)

/-- The triangle equilibrium matrix is nonsingular. -/
lemma tri_det_ne (L h : ℝ) (hL : 0 < L) (hh : 0 < h) : (triA L h).det ≠ 0 := by
  have hS : 0 < triS L h := Real.sqrt_pos.mpr (by positivity)
  have hSne : triS L h ≠ 0 := ne_of_gt hS
  have hhne : h ≠ 0 := ne_of_gt hh
  have hLne : L ≠ 0 := ne_of_gt hL
  intro hdet
  obtain ⟨v, hvne, hv0⟩ := Matrix.exists_mulVec_eq_zero_iff.mpr hdet
  have h0 := congrFun hv0 0
  have h1 := congrFun hv0 1
  have h2 := congrFun hv0 2
  have h3 := congrFun hv0 3
  have h4 := congrFun hv0 4
  have h5 := congrFun hv0 5
  simp [triA, Matrix.mulVec, dotProduct, Fin.sum_univ_six, cons_val_five,
    Matrix.vecHead, Matrix.vecTail] at h0 h1 h2 h3 h4 h5
  have hcl : 0 < L / 2 / triS L h := div_pos (div_pos hL two_pos) hS
  have hsl : 0 < h / triS L h := div_pos hh hS
  have e4 : (v 2 - v 1) * (L / 2 / triS L h) = 0 := by linear_combination h4
  have e5 : (v 1 + v 2) * (h / triS L h) = 0 := by linear_combination -h5
  have hd1 : v 2 - v 1 = 0 := by
    rcases mul_eq_zero.mp e4 with hx | hx
    · exact hx
    · exact absurd hx (ne_of_gt hcl)
  have hd2 : v 1 + v 2 = 0 := by
    rcases mul_eq_zero.mp e5 with hx | hx
    · exact hx
    · exact absurd hx (ne_of_gt hsl)
  have ev1 : v 1 = 0 := by linarith
  have ev2 : v 2 = 0 := by linarith
  have ev0 : v 0 = 0 := by
    linear_combination -h2 - (L / 2 / triS L h) * ev2
  have ev5 : v 5 = 0 := by
    linear_combination h3 - (h / triS L h) * ev2
  have ev3 : v 3 = 0 := by
    linear_combination h0 - ev0 - (L / 2 / triS L h) * ev1
  have ev4 : v 4 = 0 := by
    linear_combination h1 - (h / triS L h) * ev1
  apply hvne
  funext i
  fin_cases i
  · exact ev0
  · exact ev1
  · exact ev2
  · exact ev3
  · exact ev4
  · exact ev5


set_option maxHeartbeats 1000000 in
set_option maxRecDepth 4000 in
/-- Full symbolic evaluation of the truss path on the triangle family:
the bottom chord carries `W·L/(4h)` (tension), both diagonals carry
`-W·ℓ/(2h)` (compression, `ℓ` the diagonal length). -/
theorem triangle_eval (L h W : ℝ) (hL : 0 < L) (hh : 0 < h) :
    solve_truss (triInput L h W) =
      .ok ⟨[⟨"A", 0, 0, 0⟩, ⟨"B", 0, 0, 0⟩, ⟨"C", 0, 0, 0⟩],
           [⟨"AB", W * L / (4 * h), 0, 0, 0, 0⟩,
            ⟨"AC", -(W * triS L h) / (2 * h), 0, 0, 0, 0⟩,
            ⟨"BC", -(W * triS L h) / (2 * h), 0, 0, 0, 0⟩]⟩ := by
  have hc1 : ((triInput L h W).nodes.length = 0) = False := by simp [triInput]
  have hdc : (triInput L h W).beams.length +
      (reactionDofs (triInput L h W).nodes).length =
      2 * (triInput L h W).nodes.length := by
    simp [triInput, reactionDofs]
  have hc2 := eq_true hdc
  have hcb := tri_checkBeams L h W hL hh
  have hcl : checkLoadsTruss (triInput L h W).nodes (triInput L h W).loads =
      .ok () := rfl
  simp only [solve_truss, hc1, if_false, hc2, if_true, hcb, hcl]
  rw [truss_tail_eval (triInput L h W).nodes (triInput L h W).beams _ _
    (trussRhs (triInput L h W).nodes (triInput L h W).loads) 6 rfl
    (triA L h) ![0, 0, 0, 0, 0, W] (triX L h W)
    (tri_matrix L h W) (tri_rhs L h W)
    (tri_det_ne L h hL hh) (tri_hv L h W hL hh)]
  rfl

/-! ## Claim C3 -/

/-- C3 counterexample: at `L = 6`, `h = 4`, `W = 1` (diagonal length 5),
the truss path succeeds but reports the diagonal forces as `-5/8 < 0`
(compression) — not all three member forces are positive as the claim
(and the repository's own `test_triangle_truss_symmetry`) state. -/
theorem C3_counterexample :
    ¬(∃ res, solve_truss (triInput 6 4 1) = .ok res ∧
        ∀ f ∈ res.internal_forces, 0 < f.axial) := by
  have hS : triS 6 4 = 5 := by
    rw [triS, show ((6 : ℝ) / 2) ^ 2 + 4 ^ 2 = 5 ^ 2 by norm_num]
    exact Real.sqrt_sq (by norm_num)
  have heval := triangle_eval 6 4 1 (by norm_num) (by norm_num)
  rw [hS] at heval
  rintro ⟨res, hres, hall⟩
  rw [heval] at hres
  injection hres with hres
  subst hres
  have hAC := hall ⟨"AC", -(1 * 5) / (2 * 4), 0, 0, 0, 0⟩ (by simp)
  norm_num at hAC

/-- C3 amended: for every `L, h, W > 0` the triangle solve succeeds, the
bottom chord `AB` carries positive (tensile) force `W·L/(4h)`, while the
diagonals `AC` and `BC` carry equal negative (compressive) force
`-W·ℓ/(2h)`. -/
theorem C3_triangle_forces (L h W : ℝ) (hL : 0 < L) (hh : 0 < h) (hW : 0 < W) :
    ∃ fAB fAC fBC,
      solve_truss (triInput L h W) =
        .ok ⟨[⟨"A", 0, 0, 0⟩, ⟨"B", 0, 0, 0⟩, ⟨"C", 0, 0, 0⟩],
             [⟨"AB", fAB, 0, 0, 0, 0⟩, ⟨"AC", fAC, 0, 0, 0, 0⟩,
              ⟨"BC", fBC, 0, 0, 0, 0⟩]⟩ ∧
      0 < fAB ∧ fAC < 0 ∧ fBC = fAC := by
  have hS : 0 < triS L h := Real.sqrt_pos.mpr (by positivity)
  refine ⟨W * L / (4 * h), -(W * triS L h) / (2 * h), -(W * triS L h) / (2 * h),
    triangle_eval L h W hL hh, by positivity, ?_, rfl⟩
  have hpos : 0 < (W * triS L h) / (2 * h) := by positivity
  linarith [neg_div (2 * h) (W * triS L h)]

/-- Witness for the amended C3 at `L = 6`, `h = 4`, `W = 1`. -/
theorem C3_witness :
    (0 : ℝ) < 6 ∧ (0 : ℝ) < 4 ∧ (0 : ℝ) < 1 ∧
    (∃ fAB fAC fBC,
      solve_truss (triInput 6 4 1) =
        .ok ⟨[⟨"A", 0, 0, 0⟩, ⟨"B", 0, 0, 0⟩, ⟨"C", 0, 0, 0⟩],
             [⟨"AB", fAB, 0, 0, 0, 0⟩, ⟨"AC", fAC, 0, 0, 0, 0⟩,
              ⟨"BC", fBC, 0, 0, 0, 0⟩]⟩ ∧
      0 < fAB ∧ fAC < 0 ∧ fBC = fAC) :=
  ⟨by norm_num, by norm_num, by norm_num,
   C3_triangle_forces 6 4 1 (by norm_num) (by norm_num) (by norm_num)⟩

/-! ## The fully unconstrained two-node member (§8). -/

/-- Evaluation of `frameSolve` on the singular branch, through a clean
`k × k` re-typing of the reduced matrix. -/
lemma frameSolve_err_of_ker (nodes : List NodeInput)
    (K : Matrix (Fin (3 * nodes.length)) (Fin (3 * nodes.length)) ℝ)
    (F : Fin (3 * nodes.length) → ℝ) (free : List (Fin (3 * nodes.length)))
    (k : ℕ) (hk : free.length = k) (g : Fin k → Fin (3 * nodes.length))
    (hg : ∀ t : Fin k, free.get (Fin.cast hk.symm t) = g t)
    (Kc : Matrix (Fin k) (Fin k) ℝ)
    (hKc : ∀ t u : Fin k, K (g t) (g u) = Kc t u)
    (hdet : Kc.det = 0) :
    frameSolve nodes K F free = .error .singular := by
  subst hk
  have hget : ∀ t : Fin free.length, free.get t = g t := by
    intro t
    have := hg t
    rwa [show Fin.cast (Eq.symm rfl) t = t from rfl] at this
  have hKff : K.submatrix (fun t => free.get t) (fun t => free.get t) = Kc := by
    ext t u
    rw [Matrix.submatrix_apply, hget, hget, hKc]
  simp only [frameSolve, hKff]
  rw [if_pos hdet]

/-- The transformation matrix maps the uniform x-translation of both
nodes to the member-axis translation `(c, s, 0, c, s, 0)`. -/
lemma Tmat_translation (c s : ℝ) :
    Tmat c s *ᵥ ![1, 0, 0, 1, 0, 0] = ![c, s, 0, c, s, 0] := by
  funext t
  fin_cases t <;>
    simp [Tmat, Matrix.mulVec, dotProduct, Fin.sum_univ_six, cons_val_five,
      Matrix.vecHead, Matrix.vecTail]

/-- The local stiffness matrix annihilates a rigid translation along the
member axis. -/
lemma kLocal_translation_ker (E A I L c s : ℝ) :
    kLocal E A I L *ᵥ ![c, s, 0, c, s, 0] = 0 := by
  funext t
  fin_cases t <;>
    (simp [kLocal, Matrix.mulVec, dotProduct, Fin.sum_univ_six, cons_val_five,
       Matrix.vecHead, Matrix.vecTail]
     try ring)

/-- The element's global stiffness contribution annihilates the uniform
x-translation of both endpoints: a rigid-body mode of the free member. -/
lemma kglob_translation_ker (E A I L c s : ℝ) :
    ((Tmat c s)ᵀ * kLocal E A I L * Tmat c s) *ᵥ ![1, 0, 0, 1, 0, 0] = 0 := by
  rw [← Matrix.mulVec_mulVec, ← Matrix.mulVec_mulVec, Tmat_translation,
    kLocal_translation_ker, Matrix.mulVec_zero]

/-- The element's global stiffness contribution is singular. -/
lemma kglob_det_zero (E A I L c s : ℝ) :
    ((Tmat c s)ᵀ * kLocal E A I L * Tmat c s).det = 0 := by
  refine Matrix.exists_mulVec_eq_zero_iff.mp
    ⟨![1, 0, 0, 1, 0, 0], ?_, kglob_translation_ker E A I L c s⟩
  intro h
  have := congrFun h 0
  norm_num at this

/-- Scattering a single element over the two nodes of a two-node
structure reproduces its 6×6 contribution on the six global DOFs. -/
lemma scatter_two (nd1 nd2 : NodeInput) (b : BeamInput)
    (M : Matrix (Fin 6) (Fin 6) ℝ) : ∀ t u : Fin 6,
    scatterK [nd1, nd2].length
      [⟨b, ⟨0, by simp⟩, ⟨1, by simp⟩, M⟩]
      (![⟨0, by simp⟩, ⟨1, by simp⟩, ⟨2, by simp⟩,
         ⟨3, by simp⟩, ⟨4, by simp⟩, ⟨5, by simp⟩] t)
      (![⟨0, by simp⟩, ⟨1, by simp⟩, ⟨2, by simp⟩,
         ⟨3, by simp⟩, ⟨4, by simp⟩, ⟨5, by simp⟩] u) =
      M t u := by
  intro t u
  fin_cases t <;> fin_cases u <;>
    simp [scatterK, addElem, dofMap, Fin.sum_univ_six, cons_val_five,
      Matrix.vecHead, Matrix.vecTail, Fin.ext_iff, Fin.coe_ofNat_eq_mod]

/-- Load validation succeeds whenever every load id resolves. -/
lemma checkLoads_ok_of_resolvable (nodes : List NodeInput) :
    ∀ loads : List LoadInput,
    (∀ ld ∈ loads, ∃ i, nodeIdx nodes ld.node_id = some i) →
    ∃ ls, checkLoads nodes loads = .ok ls
  | [], _ => ⟨[], rfl⟩
  | ld :: rest, h => by
    obtain ⟨i, hi⟩ := h ld (by simp)
    obtain ⟨ls, hls⟩ := checkLoads_ok_of_resolvable nodes rest
      (fun l hl => h l (by simp [hl]))
    exact ⟨(i, ld) :: ls, by simp only [checkLoads, hi, hls]⟩

/-- Core of C4: with both endpoint nodes spatially distinct, resolvable
loads and a free-DOF set covering all six DOFs, the frame solve hits the
singular branch. -/
lemma twoNode_unconstrained_core (x1 y1 x2 y2 E I A : ℝ)
    (c1 c2 : Option NodeConstraint) (loads : List LoadInput)
    (hdist : ¬((x2 - x1) ^ 2 + (y2 - y1) ^ 2 ≤ 0))
    (hld : ∀ ld ∈ loads, ld.node_id = "n1" ∨ ld.node_id = "n2")
    (hfree : freeDofs [⟨"n1", x1, y1, c1⟩, ⟨"n2", x2, y2, c2⟩] =
      [⟨0, by simp⟩, ⟨1, by simp⟩, ⟨2, by simp⟩,
       ⟨3, by simp⟩, ⟨4, by simp⟩, ⟨5, by simp⟩]) :
    simulate_structure ⟨[⟨"n1", x1, y1, c1⟩, ⟨"n2", x2, y2, c2⟩],
      [⟨"b1", "n1", "n2", E, I, A⟩], loads, "frame"⟩ = .error .singular := by
  have h1 : nodeIdx [(⟨"n1", x1, y1, c1⟩ : NodeInput), ⟨"n2", x2, y2, c2⟩] "n1" =
      some ⟨0, by simp⟩ := rfl
  have h2 : nodeIdx [(⟨"n1", x1, y1, c1⟩ : NodeInput), ⟨"n2", x2, y2, c2⟩] "n2" =
      some ⟨1, by simp⟩ := rfl
  have hcb : checkBeamsFrame [⟨"n1", x1, y1, c1⟩, ⟨"n2", x2, y2, c2⟩]
      [⟨"b1", "n1", "n2", E, I, A⟩] =
      .ok [⟨⟨"b1", "n1", "n2", E, I, A⟩, ⟨0, by simp⟩, ⟨1, by simp⟩,
        (Tmat ((x2 - x1) / Real.sqrt ((x2 - x1) ^ 2 + (y2 - y1) ^ 2))
            ((y2 - y1) / Real.sqrt ((x2 - x1) ^ 2 + (y2 - y1) ^ 2)))ᵀ
          * kLocal E A I (Real.sqrt ((x2 - x1) ^ 2 + (y2 - y1) ^ 2))
          * Tmat ((x2 - x1) / Real.sqrt ((x2 - x1) ^ 2 + (y2 - y1) ^ 2))
            ((y2 - y1) / Real.sqrt ((x2 - x1) ^ 2 + (y2 - y1) ^ 2))⟩] := by
    have hel := element_stiffness_ok E A I x1 y1 x2 y2 hdist
    have hget0 : ([(⟨"n1", x1, y1, c1⟩ : NodeInput), ⟨"n2", x2, y2, c2⟩].get
      ⟨0, by simp⟩) = ⟨"n1", x1, y1, c1⟩ := rfl
    have hget1 : ([(⟨"n1", x1, y1, c1⟩ : NodeInput), ⟨"n2", x2, y2, c2⟩].get
      ⟨1, by simp⟩) = ⟨"n2", x2, y2, c2⟩ := rfl
    simp only [checkBeamsFrame, h1, h2, hget0, hget1, hel]
  obtain ⟨ls, hcl⟩ := checkLoads_ok_of_resolvable
    [⟨"n1", x1, y1, c1⟩, ⟨"n2", x2, y2, c2⟩] loads
    (by
      intro ld hl
      rcases hld ld hl with hida | hidb
      · exact ⟨_, by rw [hida]; exact h1⟩
      · exact ⟨_, by rw [hidb]; exact h2⟩)
  have hc1 : (([(⟨"n1", x1, y1, c1⟩ : NodeInput), ⟨"n2", x2, y2, c2⟩] :
      List NodeInput).length = 0) = False := by simp
  have hsolve := frameSolve_err_of_ker
    [⟨"n1", x1, y1, c1⟩, ⟨"n2", x2, y2, c2⟩]
    (scatterK [(⟨"n1", x1, y1, c1⟩ : NodeInput), ⟨"n2", x2, y2, c2⟩].length
      [⟨⟨"b1", "n1", "n2", E, I, A⟩, ⟨0, by simp⟩, ⟨1, by simp⟩,
        (Tmat ((x2 - x1) / Real.sqrt ((x2 - x1) ^ 2 + (y2 - y1) ^ 2))
            ((y2 - y1) / Real.sqrt ((x2 - x1) ^ 2 + (y2 - y1) ^ 2)))ᵀ
          * kLocal E A I (Real.sqrt ((x2 - x1) ^ 2 + (y2 - y1) ^ 2))
          * Tmat ((x2 - x1) / Real.sqrt ((x2 - x1) ^ 2 + (y2 - y1) ^ 2))
            ((y2 - y1) / Real.sqrt ((x2 - x1) ^ 2 + (y2 - y1) ^ 2))⟩])
    (loadVec [(⟨"n1", x1, y1, c1⟩ : NodeInput), ⟨"n2", x2, y2, c2⟩].length ls)
    [⟨0, by simp⟩, ⟨1, by simp⟩, ⟨2, by simp⟩, ⟨3, by simp⟩, ⟨4, by simp⟩, ⟨5, by simp⟩]
    6 rfl
    ![⟨0, by simp⟩, ⟨1, by simp⟩, ⟨2, by simp⟩, ⟨3, by simp⟩, ⟨4, by simp⟩, ⟨5, by simp⟩]
    (by intro t; fin_cases t <;> rfl)
    ((Tmat ((x2 - x1) / Real.sqrt ((x2 - x1) ^ 2 + (y2 - y1) ^ 2))
        ((y2 - y1) / Real.sqrt ((x2 - x1) ^ 2 + (y2 - y1) ^ 2)))ᵀ
      * kLocal E A I (Real.sqrt ((x2 - x1) ^ 2 + (y2 - y1) ^ 2))
      * Tmat ((x2 - x1) / Real.sqrt ((x2 - x1) ^ 2 + (y2 - y1) ^ 2))
        ((y2 - y1) / Real.sqrt ((x2 - x1) ^ 2 + (y2 - y1) ^ 2)))
    (scatter_two _ _ _ _)
    (kglob_det_zero E A I _ _ _)
  simp only [simulate_structure, hc1, if_false, hcb, hcl]
  rw [hfree]
  rw [if_neg (by simp)]
  rw [hsolve]

/-- C4: a two-node, one-member frame structure whose endpoints are
spatially distinct and in which no constraint flag is set on either node
(whatever the loads on its two nodes) fails with the singularity /
instability error — an error distinct from every validation error — and
never returns a result. -/
theorem C4_unconstrained_two_node_singular (x1 y1 x2 y2 E I A : ℝ)
    (c1 c2 : Option NodeConstraint) (loads : List LoadInput)
    (hpos : (x1, y1) ≠ (x2, y2))
    (h1 : ∀ c, c1 = some c →
      c.fix_x = false ∧ c.fix_y = false ∧ c.fix_rotation = false)
    (h2 : ∀ c, c2 = some c →
      c.fix_x = false ∧ c.fix_y = false ∧ c.fix_rotation = false)
    (hld : ∀ ld ∈ loads, ld.node_id = "n1" ∨ ld.node_id = "n2") :
    simulate_structure ⟨[⟨"n1", x1, y1, c1⟩, ⟨"n2", x2, y2, c2⟩],
      [⟨"b1", "n1", "n2", E, I, A⟩], loads, "frame"⟩ = .error .singular ∧
    (∀ b, (FrameError.singular : FrameError) ≠ .unknownNodeBeam b) ∧
    (∀ n, (FrameError.singular : FrameError) ≠ .unknownNodeLoad n) ∧
    (FrameError.singular : FrameError) ≠ .zeroLength := by
  have hdist : ¬((x2 - x1) ^ 2 + (y2 - y1) ^ 2 ≤ 0) := by
    intro hle
    obtain ⟨hx, hy⟩ := (sq_add_sq_nonpos _ _).mp hle
    exact hpos (by
      have hx2 : x1 = x2 := by linarith
      have hy2 : y1 = y2 := by linarith
      rw [hx2, hy2])
  refine ⟨?_, fun b => by simp, fun n => by simp, by simp⟩
  rcases c1 with _ | ⟨f1x, f1y, f1r⟩
  · rcases c2 with _ | ⟨f2x, f2y, f2r⟩
    · exact twoNode_unconstrained_core x1 y1 x2 y2 E I A none none loads
        hdist hld rfl
    · obtain ⟨e1, e2, e3⟩ := h2 _ rfl
      subst e1; subst e2; subst e3
      exact twoNode_unconstrained_core x1 y1 x2 y2 E I A none
        (some ⟨false, false, false⟩) loads hdist hld rfl
  · obtain ⟨e1, e2, e3⟩ := h1 _ rfl
    subst e1; subst e2; subst e3
    rcases c2 with _ | ⟨f2x, f2y, f2r⟩
    · exact twoNode_unconstrained_core x1 y1 x2 y2 E I A
        (some ⟨false, false, false⟩) none loads hdist hld rfl
    · obtain ⟨e1, e2, e3⟩ := h2 _ rfl
      subst e1; subst e2; subst e3
      exact twoNode_unconstrained_core x1 y1 x2 y2 E I A
        (some ⟨false, false, false⟩) (some ⟨false, false, false⟩) loads
        hdist hld rfl

/-- Witness for C4: the unconstrained unit member from `(0,0)` to
`(1,0)` with a unit tip load. -/
theorem C4_witness :
    ((0 : ℝ), (0 : ℝ)) ≠ ((1 : ℝ), (0 : ℝ)) ∧
    simulate_structure ⟨[⟨"n1", 0, 0, none⟩, ⟨"n2", 1, 0, none⟩],
      [⟨"b1", "n1", "n2", 1, 1, 1⟩], [⟨"n2", 0, -1, 0⟩], "frame"⟩ =
      .error .singular :=
  ⟨by norm_num [Prod.ext_iff], (C4_unconstrained_two_node_singular 0 0 1 0 1 1 1 none none
      [⟨"n2", 0, -1, 0⟩] (by norm_num [Prod.ext_iff]) (fun c hc => nomatch hc) (fun c hc => nomatch hc)
      (by intro ld hl; simp at hl; rw [hl]; right; rfl)).1⟩

/-! ## Truss determinacy (C5). -/

/-- The length of the reaction-DOF list is the total count of `fix_x`
and `fix_y` flags over all nodes (`fix_rotation` never contributes). -/
lemma reactionDofs_length (nodes : List NodeInput) :
    (reactionDofs nodes).length = (nodes.map fun nd =>
      match nd.constraints with
      | none => 0
      | some c => (if c.fix_x then 1 else 0) + (if c.fix_y then 1 else 0)).sum := by
  induction nodes with
  | nil => rfl
  | cons nd rest ih =>
    rcases nd with ⟨nid, x, y, c⟩
    rcases c with _ | ⟨fx, fy, fr⟩
    · simpa [reactionDofs] using ih
    · cases fx <;> cases fy <;> (simp [reactionDofs, ih]; try omega)

/-- Truss member validation only ever raises unknown-node or zero-length
errors. -/
lemma checkBeamsTruss_err (nodes : List NodeInput) :
    ∀ (beams : List BeamInput) (e : TrussError),
      checkBeamsTruss nodes beams = .error e →
      (∃ b, e = .unknownNodeBeam b) ∨ e = .zeroLength := by
  intro beams
  induction beams with
  | nil => intro e h; exact absurd h (by simp [checkBeamsTruss])
  | cons b rest ih =>
    intro e h
    rw [checkBeamsTruss] at h
    rcases hs : nodeIdx nodes b.node_start with _ | i <;> rw [hs] at h
    · injection h with h
      exact Or.inl ⟨b.id, h.symm⟩
    · rcases ht : nodeIdx nodes b.node_end with _ | jn <;> rw [ht] at h
      · injection h with h
        exact Or.inl ⟨b.id, h.symm⟩
      · simp only [] at h
        by_cases hL : Real.sqrt (((nodes.get jn).x - (nodes.get i).x) ^ 2 +
            ((nodes.get jn).y - (nodes.get i).y) ^ 2) ≤ 0
        · rw [if_pos hL] at h
          injection h with h
          exact Or.inr h.symm
        · rw [if_neg hL] at h
          rcases hr : checkBeamsTruss nodes rest with e2 | ds <;> rw [hr] at h
          · injection h with h
            subst h
            exact ih _ hr
          · exact absurd h (by simp)

/-- Truss load validation only ever raises unknown-node errors. -/
lemma checkLoadsTruss_err (nodes : List NodeInput) :
    ∀ (loads : List LoadInput) (e : TrussError),
      checkLoadsTruss nodes loads = .error e → ∃ n, e = .unknownNodeLoad n := by
  intro loads
  induction loads with
  | nil => intro e h; exact absurd h (by simp [checkLoadsTruss])
  | cons ld rest ih =>
    intro e h
    rw [checkLoadsTruss] at h
    rcases hs : nodeIdx nodes ld.node_id with _ | i <;> rw [hs] at h
    · injection h with h
      exact ⟨ld.node_id, h.symm⟩
    · simp only [] at h
      exact ih e h

/-- C5: writing `m` for the member count, `r` for the reaction count
(provably the number of `fix_x` plus `fix_y` flags over all nodes,
`fix_rotation` ignored) and `j` for the node count: every non-empty
truss input with `m + r ≠ 2j` fails with the determinacy error carrying
exactly the counted values `m + r` and `2j`, and no input with
`m + r = 2j` ever raises a determinacy error. -/
theorem C5_determinacy (inp : SimulationInput) :
    ((reactionDofs inp.nodes).length = (inp.nodes.map fun nd =>
      match nd.constraints with
      | none => 0
      | some c => (if c.fix_x then 1 else 0) + (if c.fix_y then 1 else 0)).sum) ∧
    (inp.nodes ≠ [] →
      inp.beams.length + (reactionDofs inp.nodes).length ≠ 2 * inp.nodes.length →
      solve_truss inp = .error (.notDeterminate
        (inp.beams.length + (reactionDofs inp.nodes).length)
        (2 * inp.nodes.length))) ∧
    (inp.beams.length + (reactionDofs inp.nodes).length = 2 * inp.nodes.length →
      ∀ mr twoJ, solve_truss inp ≠ .error (.notDeterminate mr twoJ)) := by
  refine ⟨reactionDofs_length inp.nodes, ?_, ?_⟩
  · intro hne hmr
    have hz : ¬(inp.nodes.length = 0) := by
      intro h
      exact hne (List.length_eq_zero.mp h)
    simp only [solve_truss]
    rw [if_neg hz, if_neg hmr]
  · intro hdet mr twoJ hcontra
    simp only [solve_truss] at hcontra
    by_cases hz : inp.nodes.length = 0
    · rw [if_pos hz] at hcontra
      exact absurd hcontra (by simp)
    · rw [if_neg hz, if_pos hdet] at hcontra
      rcases hb : checkBeamsTruss inp.nodes inp.beams with e | ds <;>
        rw [hb] at hcontra <;> simp only [] at hcontra
      · injection hcontra with hcontra
        subst hcontra
        rcases checkBeamsTruss_err inp.nodes inp.beams _ hb with ⟨b2, hb2⟩ | hb2 <;>
          exact absurd hb2 (by simp)
      · rcases hl : checkLoadsTruss inp.nodes inp.loads with e | u <;>
          rw [hl] at hcontra <;> simp only [] at hcontra
        · injection hcontra with hcontra
          subst hcontra
          obtain ⟨n2, hn2⟩ := checkLoadsTruss_err inp.nodes inp.loads _ hl
          exact absurd hn2 (by simp)
        · by_cases hd : (trussMatrix inp.nodes.length ds
              (reactionDofs inp.nodes)).det = 0
          · rw [if_pos hd] at hcontra
            exact absurd hcontra (by simp)
          · rw [if_neg hd] at hcontra
            exact absurd hcontra (by simp)

/-- Witness for C5: a single free node with no members, `m + r = 0`,
`2j = 2`, is reported as not determinate with exactly those counts. -/
theorem C5_witness :
    ([(⟨"A", 0, 0, none⟩ : NodeInput)] ≠ ([] : List NodeInput)) ∧
    (([(⟨"A", (0 : ℝ), 0, none⟩ : NodeInput)], ([] : List BeamInput)).2.length +
      (reactionDofs [(⟨"A", (0 : ℝ), 0, none⟩ : NodeInput)]).length ≠
      2 * [(⟨"A", (0 : ℝ), 0, none⟩ : NodeInput)].length) ∧
    solve_truss ⟨[⟨"A", 0, 0, none⟩], [], [], "truss"⟩ =
      .error (.notDeterminate 0 2) :=
  ⟨by simp, by simp [reactionDofs],
    (C5_determinacy ⟨[⟨"A", 0, 0, none⟩], [], [], "truss"⟩).2.1
      (by simp) (by simp [reactionDofs])⟩

/-! ## Constrained DOFs stay zero (C6). -/

/-- Every member of the node list resolves through the id map. -/
lemma nodeIdx_of_mem (nodes : List NodeInput) (nd : NodeInput) (h : nd ∈ nodes) :
    ∃ i, nodeIdx nodes nd.id = some i := by
  induction nodes with
  | nil => exact absurd h (List.not_mem_nil nd)
  | cons nd0 rest ih =>
    rcases hr : nodeIdx rest nd.id with _ | k
    · rcases List.mem_cons.mp h with he | hm
      · refine ⟨⟨0, Nat.succ_pos _⟩, ?_⟩
        simp only [nodeIdx, hr]
        rw [if_pos (by rw [he])]
      · obtain ⟨k, hk⟩ := ih hm
        exact absurd (hr.symm.trans hk) (by simp)
    · refine ⟨k.succ, ?_⟩
      simp only [nodeIdx, hr]

/-- A solved frame displacement vanishes at every DOF outside the free
list (the scatter-back loop only writes free DOFs). -/
lemma frameSolve_ok_notin (nodes : List NodeInput)
    (K : Matrix (Fin (3 * nodes.length)) (Fin (3 * nodes.length)) ℝ)
    (F : Fin (3 * nodes.length) → ℝ) (free : List (Fin (3 * nodes.length)))
    (U : Fin (3 * nodes.length) → ℝ)
    (h : frameSolve nodes K F free = .ok U)
    (p : Fin (3 * nodes.length)) (hp : p ∉ free) : U p = 0 := by
  simp only [frameSolve] at h
  by_cases hd : (K.submatrix (fun t => free.get t) (fun t => free.get t)).det = 0
  · rw [if_pos hd] at h
    exact absurd h (by simp)
  · rw [if_neg hd] at h
    injection h with h
    subst h
    exact Finset.sum_eq_zero fun t _ =>
      if_neg fun he => hp (by rw [← he]; exact List.get_mem free t.val t.isLt)

/-- A constrained DOF is never in the free list, so a solved frame
displacement is exactly zero there. -/
lemma frameSolve_ok_constrained (nodes : List NodeInput)
    (K : Matrix (Fin (3 * nodes.length)) (Fin (3 * nodes.length)) ℝ)
    (F : Fin (3 * nodes.length) → ℝ) (U : Fin (3 * nodes.length) → ℝ)
    (h : frameSolve nodes K F (freeDofs nodes) = .ok U)
    (p : Fin (3 * nodes.length)) (hp : isConstrained nodes p = true) : U p = 0 := by
  refine frameSolve_ok_notin nodes K F (freeDofs nodes) U h p fun hm => ?_
  rw [freeDofs, List.mem_filter] at hm
  rw [hp] at hm
  simp at hm

/-- A node's flags mark its three global DOFs as constrained. -/
lemma isConstrained_flags (nodes : List NodeInput) (nd : NodeInput)
    (hmem : nd ∈ nodes) (i : Fin nodes.length)
    (hi : nodeIdx nodes nd.id = some i) (c : NodeConstraint)
    (hc : nd.constraints = some c) :
    (c.fix_x = true → isConstrained nodes
      ⟨3 * i.val, by have := i.isLt; omega⟩ = true) ∧
    (c.fix_y = true → isConstrained nodes
      ⟨3 * i.val + 1, by have := i.isLt; omega⟩ = true) ∧
    (c.fix_rotation = true → isConstrained nodes
      ⟨3 * i.val + 2, by have := i.isLt; omega⟩ = true) := by
  refine ⟨fun hx => ?_, fun hy => ?_, fun hz => ?_⟩ <;>
    · rw [isConstrained]
      refine List.any_eq_true.mpr ⟨nd, hmem, ?_⟩
      simp [hi, hc, *]

/-- C6: in every successful frame analysis the displacement rows pair up
with the node list, and any flagged DOF of any node is reported as
exactly zero: `fix_x` forces `ux = 0`, `fix_y` forces `uy = 0`,
`fix_rotation` forces `rotation = 0`. -/
theorem C6_constrained_dofs_zero (inp : SimulationInput) (res : SimulationResult)
    (h : simulate_structure inp = .ok res) :
    res.displacements.length = inp.nodes.length ∧
    ∀ (k : ℕ) (hk1 : k < inp.nodes.length) (hk2 : k < res.displacements.length)
      (c : NodeConstraint), (inp.nodes.get ⟨k, hk1⟩).constraints = some c →
      (c.fix_x = true → (res.displacements.get ⟨k, hk2⟩).ux = 0) ∧
      (c.fix_y = true → (res.displacements.get ⟨k, hk2⟩).uy = 0) ∧
      (c.fix_rotation = true → (res.displacements.get ⟨k, hk2⟩).rotation = 0) := by
  simp only [simulate_structure] at h
  by_cases hz : inp.nodes.length = 0
  · rw [if_pos hz] at h
    injection h with h
    subst h
    refine ⟨by simp [hz], ?_⟩
    intro k hk1
    exact absurd hk1 (by omega)
  · rw [if_neg hz] at h
    rcases hb : checkBeamsFrame inp.nodes inp.beams with e | ds <;>
      rw [hb] at h <;> simp only [] at h
    · exact absurd h (by simp)
    · rcases hl : checkLoads inp.nodes inp.loads with e | ls <;>
        rw [hl] at h <;> simp only [] at h
      · exact absurd h (by simp)
      · by_cases hfree : (freeDofs inp.nodes).length = 0
        · rw [if_pos hfree] at h
          injection h with h
          subst h
          refine ⟨by simp, ?_⟩
          intro k hk1 hk2 c hc
          refine ⟨fun _ => ?_, fun _ => ?_, fun _ => ?_⟩ <;>
            simp [List.get_map]
        · rw [if_neg hfree] at h
          rcases hfs : frameSolve inp.nodes (scatterK inp.nodes.length ds)
              (loadVec inp.nodes.length ls) (freeDofs inp.nodes) with e | U <;>
            rw [hfs] at h <;> simp only [] at h
          · exact absurd h (by simp)
          · rcases hrf : recoverForces inp.nodes U ds with e | bf <;>
              rw [hrf] at h <;> simp only [] at h
            · exact absurd h (by simp)
            · injection h with h
              subst h
              refine ⟨by simp, ?_⟩
              intro k hk1 hk2 c hc
              have hg : (List.map (nodeResultOf inp.nodes U) inp.nodes).get
                  ⟨k, hk2⟩ = nodeResultOf inp.nodes U (inp.nodes.get ⟨k, hk1⟩) := by
                simp [List.get_map]
              have hmem := List.get_mem inp.nodes k hk1
              obtain ⟨i, hi⟩ := nodeIdx_of_mem inp.nodes (inp.nodes.get ⟨k, hk1⟩) hmem
              have hflags := isConstrained_flags inp.nodes (inp.nodes.get ⟨k, hk1⟩)
                hmem i hi c hc
              rw [hg]
              simp only [nodeResultOf, hi]
              exact ⟨fun hx => frameSolve_ok_constrained inp.nodes _ _ U hfs _
                  (hflags.1 hx),
                fun hy => frameSolve_ok_constrained inp.nodes _ _ U hfs _
                  (hflags.2.1 hy),
                fun hr => frameSolve_ok_constrained inp.nodes _ _ U hfs _
                  (hflags.2.2 hr)⟩

/-- Witness for C6 on the solved cantilever: the fully fixed node `n1`
reports exactly zero for all three DOFs. -/
theorem C6_witness :
    simulate_structure (cantInput 1 1 1 1 0 (-1) 0) =
      .ok ⟨[⟨"n1", 0, 0, 0⟩,
            ⟨"n2", 0 * 1 / (1 * 1),
              -1 * 1 ^ 3 / (3 * (1 * 1)) + 0 * 1 ^ 2 / (2 * (1 * 1)),
              -1 * 1 ^ 2 / (2 * (1 * 1)) + 0 * 1 / (1 * 1)⟩],
           [⟨"b1", -0, -(-1), -(-1), -(-1 * 1) - 0, -0⟩]⟩ ∧
    (([⟨"n1", (0 : ℝ), 0, 0⟩,
       ⟨"n2", 0 * 1 / (1 * 1),
         -1 * 1 ^ 3 / (3 * (1 * 1)) + 0 * 1 ^ 2 / (2 * (1 * 1)),
         -1 * 1 ^ 2 / (2 * (1 * 1)) + 0 * 1 / (1 * 1)⟩] :
      List NodeResult).get ⟨0, by norm_num⟩).ux = 0 := by
  have heval := cantilever_eval 1 1 1 1 0 (-1) 0 (by norm_num) (by norm_num)
    (by norm_num) (by norm_num)
  refine ⟨heval, ?_⟩
  have hc6 := C6_constrained_dofs_zero (cantInput 1 1 1 1 0 (-1) 0) _ heval
  exact (hc6.2 0 (by simp [cantInput]) (by norm_num) ⟨true, true, true⟩ rfl).1 rfl

/-! ## Trivial edge cases (C7). -/

/-- An id absent from the node list never resolves. -/
lemma nodeIdx_eq_none_of_not_mem (s : String) :
    ∀ nodes : List NodeInput, s ∉ nodes.map NodeInput.id →
    nodeIdx nodes s = none
  | [], _ => rfl
  | nd :: rest, h => by
    have hrest : s ∉ rest.map NodeInput.id := fun hm => h (by simp [hm])
    have hne : ¬(nd.id = s) := fun he => h (by simp [he])
    simp only [nodeIdx, nodeIdx_eq_none_of_not_mem s rest hrest]
    rw [if_neg hne]

/-- With pairwise distinct ids, each node resolves to its own index. -/
lemma nodeIdx_get_of_nodup :
    ∀ (nodes : List NodeInput), (nodes.map NodeInput.id).Nodup →
    ∀ (k : ℕ) (hk : k < nodes.length),
    nodeIdx nodes (nodes.get ⟨k, hk⟩).id = some ⟨k, hk⟩
  | [], _, k, hk => absurd hk (by simp)
  | nd :: rest, hnd, 0, hk => by
    obtain ⟨hnotmem, hndrest⟩ := List.nodup_cons.mp hnd
    show nodeIdx (nd :: rest) nd.id = some ⟨0, hk⟩
    simp only [nodeIdx, nodeIdx_eq_none_of_not_mem nd.id rest hnotmem]
    simp
  | nd :: rest, hnd, k + 1, hk => by
    obtain ⟨hnotmem, hndrest⟩ := List.nodup_cons.mp hnd
    have ih := nodeIdx_get_of_nodup rest hndrest k (by simpa using hk)
    show nodeIdx (nd :: rest) (rest.get ⟨k, _⟩).id = some ⟨k + 1, hk⟩
    simp only [nodeIdx, ih]
    rfl

/-- If every node is fully fixed (and ids are distinct), every global
DOF is constrained. -/
lemma isConstrained_all (nodes : List NodeInput)
    (hnd : (nodes.map NodeInput.id).Nodup)
    (hall : ∀ nd ∈ nodes, nd.constraints = some ⟨true, true, true⟩)
    (p : Fin (3 * nodes.length)) : isConstrained nodes p = true := by
  have hq : p.val / 3 < nodes.length := by have := p.isLt; omega
  have hidx := nodeIdx_get_of_nodup nodes hnd (p.val / 3) hq
  have hc := hall (nodes.get ⟨p.val / 3, hq⟩) (List.get_mem nodes _ hq)
  rw [isConstrained]
  refine List.any_eq_true.mpr ⟨nodes.get ⟨p.val / 3, hq⟩, List.get_mem nodes _ hq, ?_⟩
  simp only [hidx, hc]
  simp only [Bool.true_and, Bool.or_eq_true, decide_eq_true_eq]
  omega

/-- Frame beam validation succeeds when every endpoint resolves and no
member is degenerate. -/
lemma checkBeamsFrame_ok_of_valid (nodes : List NodeInput) :
    ∀ beams : List BeamInput,
    (∀ b ∈ beams, (∃ i, nodeIdx nodes b.node_start = some i) ∧
      (∃ j, nodeIdx nodes b.node_end = some j)) →
    (∀ b ∈ beams, ∀ i j, nodeIdx nodes b.node_start = some i →
      nodeIdx nodes b.node_end = some j →
      ¬(((nodes.get j).x - (nodes.get i).x) ^ 2 +
        ((nodes.get j).y - (nodes.get i).y) ^ 2 ≤ 0)) →
    ∃ ds, checkBeamsFrame nodes beams = .ok ds
  | [], _, _ => ⟨[], rfl⟩
  | b :: rest, h1, h2 => by
    obtain ⟨⟨i, hi⟩, ⟨j, hj⟩⟩ := h1 b (by simp)
    have hdist := h2 b (by simp) i j hi hj
    obtain ⟨ds, hds⟩ := checkBeamsFrame_ok_of_valid nodes rest
      (fun b2 hb2 => h1 b2 (by simp [hb2]))
      (fun b2 hb2 => h2 b2 (by simp [hb2]))
    obtain ⟨kg, L0, c0, s0, hel⟩ : ∃ kg L0 c0 s0,
        _element_stiffness b.E b.A b.I (nodes.get i).x (nodes.get i).y
          (nodes.get j).x (nodes.get j).y = .ok (kg, L0, c0, s0) :=
      ⟨_, _, _, _, element_stiffness_ok b.E b.A b.I (nodes.get i).x (nodes.get i).y
        (nodes.get j).x (nodes.get j).y hdist⟩
    exact ⟨⟨b, i, j, kg⟩ :: ds, by simp only [checkBeamsFrame, hi, hj, hel, hds]⟩

/-- C7: the zero-node input is a valid trivial result (empty collections)
on both paths for any member/load lists, and an otherwise-valid frame
input (distinct node ids, resolvable and non-degenerate members,
resolvable loads) in which every node is fully fixed returns all-zero
displacements and all-zero internal forces without failing. -/
theorem C7_trivial_edge_cases :
    (∀ (beams : List BeamInput) (loads : List LoadInput) (t : String),
      simulate_structure ⟨[], beams, loads, t⟩ = .ok ⟨[], []⟩) ∧
    (∀ (beams : List BeamInput) (loads : List LoadInput) (t : String),
      solve_truss ⟨[], beams, loads, t⟩ = .ok ⟨[], []⟩) ∧
    (∀ inp : SimulationInput,
      (inp.nodes.map NodeInput.id).Nodup →
      (∀ nd ∈ inp.nodes, nd.constraints = some ⟨true, true, true⟩) →
      (∀ b ∈ inp.beams, (∃ i, nodeIdx inp.nodes b.node_start = some i) ∧
        (∃ j, nodeIdx inp.nodes b.node_end = some j)) →
      (∀ b ∈ inp.beams, ∀ i j, nodeIdx inp.nodes b.node_start = some i →
        nodeIdx inp.nodes b.node_end = some j →
        ¬(((inp.nodes.get j).x - (inp.nodes.get i).x) ^ 2 +
          ((inp.nodes.get j).y - (inp.nodes.get i).y) ^ 2 ≤ 0)) →
      (∀ ld ∈ inp.loads, ∃ i, nodeIdx inp.nodes ld.node_id = some i) →
      simulate_structure inp = .ok
        ⟨inp.nodes.map fun nd => ⟨nd.id, 0, 0, 0⟩,
         inp.beams.map fun b => ⟨b.id, 0, 0, 0, 0, 0⟩⟩) := by
  refine ⟨fun beams loads t => rfl, fun beams loads t => rfl, ?_⟩
  intro inp hnd hall hbv hbd hlv
  by_cases hz : inp.nodes.length = 0
  · have hnodes : inp.nodes = [] := List.length_eq_zero.mp hz
    have hbeams : inp.beams = [] := by
      rcases hbe : inp.beams with _ | ⟨b, rest⟩
      · rfl
      · obtain ⟨⟨i, hi⟩, _⟩ := hbv b (by rw [hbe]; simp)
        exact absurd i.isLt (by omega)
    simp only [simulate_structure, hz, if_true, hnodes, hbeams]
    rfl
  · obtain ⟨ds, hds⟩ := checkBeamsFrame_ok_of_valid inp.nodes inp.beams hbv hbd
    obtain ⟨ls, hls⟩ := checkLoads_ok_of_resolvable inp.nodes inp.loads hlv
    have hfree : freeDofs inp.nodes = [] := by
      rw [freeDofs]
      refine List.filter_eq_nil.mpr fun p hp => ?_
      simp [isConstrained_all inp.nodes hnd hall p]
    simp only [simulate_structure, hz, if_false, hds, hls, hfree]
    rfl

/-- Witness for C7: concrete zero-node inputs on both paths, and a fully
fixed single-node frame with a load. -/
theorem C7_witness :
    simulate_structure ⟨[], [⟨"b1", "x", "y", 1, 1, 1⟩], [⟨"z", 1, 2, 3⟩], "frame"⟩ =
      .ok ⟨[], []⟩ ∧
    solve_truss ⟨[], [⟨"b1", "x", "y", 1, 1, 1⟩], [⟨"z", 1, 2, 3⟩], "truss"⟩ =
      .ok ⟨[], []⟩ ∧
    simulate_structure ⟨[⟨"A", 0, 0, some ⟨true, true, true⟩⟩], [],
      [⟨"A", 1, 2, 3⟩], "frame"⟩ = .ok ⟨[⟨"A", 0, 0, 0⟩], []⟩ :=
  ⟨C7_trivial_edge_cases.1 [⟨"b1", "x", "y", 1, 1, 1⟩] [⟨"z", 1, 2, 3⟩] "frame",
   C7_trivial_edge_cases.2.1 [⟨"b1", "x", "y", 1, 1, 1⟩] [⟨"z", 1, 2, 3⟩] "truss",
   C7_trivial_edge_cases.2.2 ⟨[⟨"A", 0, 0, some ⟨true, true, true⟩⟩], [],
      [⟨"A", 1, 2, 3⟩], "frame"⟩
     (by simp) (by intro nd h; simp at h; rw [h])
     (by intro b h; simp at h) (by intro b h; simp at h)
     (by intro ld h; simp at h; rw [h]; exact ⟨⟨0, by simp⟩, rfl⟩)⟩

/-! ## Unknown-node references (C8). -/

/-- Frame beam validation fails whenever some member endpoint dangles. -/
lemma checkBeamsFrame_err_of_dangling (nodes : List NodeInput) :
    ∀ beams : List BeamInput,
    (∃ b ∈ beams, nodeIdx nodes b.node_start = none ∨
      nodeIdx nodes b.node_end = none) →
    ∃ e, checkBeamsFrame nodes beams = .error e
  | [], h => absurd h (by simp)
  | b :: rest, h => by
    rcases hs : nodeIdx nodes b.node_start with _ | i
    · exact ⟨.unknownNodeBeam b.id, by simp only [checkBeamsFrame, hs]⟩
    · rcases ht : nodeIdx nodes b.node_end with _ | jn
      · exact ⟨.unknownNodeBeam b.id, by simp only [checkBeamsFrame, hs, ht]⟩
      · have hrest : ∃ b2 ∈ rest, nodeIdx nodes b2.node_start = none ∨
            nodeIdx nodes b2.node_end = none := by
          rcases h with ⟨b2, hmem, hd⟩
          rcases List.mem_cons.mp hmem with he | hm
          · subst he
            rcases hd with h1 | h1
            · exact Option.noConfusion (hs.symm.trans h1)
            · exact Option.noConfusion (ht.symm.trans h1)
          · exact ⟨b2, hm, hd⟩
        rcases hel : _element_stiffness b.E b.A b.I (nodes.get i).x
            (nodes.get i).y (nodes.get jn).x (nodes.get jn).y with e0 | tup
        · exact ⟨e0, by simp only [checkBeamsFrame, hs, ht, hel]⟩
        · obtain ⟨e, he⟩ := checkBeamsFrame_err_of_dangling nodes rest hrest
          obtain ⟨kg, L0, c0, s0⟩ := tup
          exact ⟨e, by simp only [checkBeamsFrame, hs, ht, hel, he]⟩

/-- Frame load validation fails whenever some load target dangles. -/
lemma checkLoads_err_of_dangling (nodes : List NodeInput) :
    ∀ loads : List LoadInput,
    (∃ ld ∈ loads, nodeIdx nodes ld.node_id = none) →
    ∃ e, checkLoads nodes loads = .error e
  | [], h => absurd h (by simp)
  | ld :: rest, h => by
    rcases hs : nodeIdx nodes ld.node_id with _ | i
    · exact ⟨.unknownNodeLoad ld.node_id, by simp only [checkLoads, hs]⟩
    · have hrest : ∃ l2 ∈ rest, nodeIdx nodes l2.node_id = none := by
        rcases h with ⟨l2, hmem, hd⟩
        rcases List.mem_cons.mp hmem with he | hm
        · subst he
          exact Option.noConfusion (hs.symm.trans hd)
        · exact ⟨l2, hm, hd⟩
      obtain ⟨e, he⟩ := checkLoads_err_of_dangling nodes rest hrest
      exact ⟨e, by simp only [checkLoads, hs, he]⟩

/-- Truss member validation fails whenever some member endpoint
dangles. -/
lemma checkBeamsTruss_err_of_dangling (nodes : List NodeInput) :
    ∀ beams : List BeamInput,
    (∃ b ∈ beams, nodeIdx nodes b.node_start = none ∨
      nodeIdx nodes b.node_end = none) →
    ∃ e, checkBeamsTruss nodes beams = .error e
  | [], h => absurd h (by simp)
  | b :: rest, h => by
    rcases hs : nodeIdx nodes b.node_start with _ | i
    · exact ⟨.unknownNodeBeam b.id, by simp only [checkBeamsTruss, hs]⟩
    · rcases ht : nodeIdx nodes b.node_end with _ | jn
      · exact ⟨.unknownNodeBeam b.id, by simp only [checkBeamsTruss, hs, ht]⟩
      · have hrest : ∃ b2 ∈ rest, nodeIdx nodes b2.node_start = none ∨
            nodeIdx nodes b2.node_end = none := by
          rcases h with ⟨b2, hmem, hd⟩
          rcases List.mem_cons.mp hmem with he | hm
          · subst he
            rcases hd with h1 | h1
            · exact Option.noConfusion (hs.symm.trans h1)
            · exact Option.noConfusion (ht.symm.trans h1)
          · exact ⟨b2, hm, hd⟩
        obtain ⟨e, he⟩ := checkBeamsTruss_err_of_dangling nodes rest hrest
        by_cases hL : Real.sqrt (((nodes.get jn).x - (nodes.get i).x) ^ 2 +
            ((nodes.get jn).y - (nodes.get i).y) ^ 2) ≤ 0
        · refine ⟨.zeroLength, ?_⟩
          simp only [checkBeamsTruss, hs, ht]
          rw [if_pos hL]
        · refine ⟨e, ?_⟩
          simp only [checkBeamsTruss, hs, ht, he]
          rw [if_neg hL]

/-- Truss load validation fails whenever some load target dangles. -/
lemma checkLoadsTruss_err_of_dangling (nodes : List NodeInput) :
    ∀ loads : List LoadInput,
    (∃ ld ∈ loads, nodeIdx nodes ld.node_id = none) →
    ∃ e, checkLoadsTruss nodes loads = .error e
  | [], h => absurd h (by simp)
  | ld :: rest, h => by
    rcases hs : nodeIdx nodes ld.node_id with _ | i
    · exact ⟨.unknownNodeLoad ld.node_id, by simp only [checkLoadsTruss, hs]⟩
    · have hrest : ∃ l2 ∈ rest, nodeIdx nodes l2.node_id = none := by
        rcases h with ⟨l2, hmem, hd⟩
        rcases List.mem_cons.mp hmem with he | hm
        · subst he
          exact Option.noConfusion (hs.symm.trans hd)
        · exact ⟨l2, hm, hd⟩
      obtain ⟨e, he⟩ := checkLoadsTruss_err_of_dangling nodes rest hrest
      exact ⟨e, by simp only [checkLoadsTruss, hs, he]⟩

/-- C8 counterexample: with zero nodes, both paths return the trivial ok
result before any validation, so a member referencing unknown nodes is
silently accepted; and on the truss path the determinacy check precedes
validation, so a dangling member in a non-determinate truss yields the
determinacy error, not the unknown-node error. -/
theorem C8_counterexample :
    nodeIdx ([] : List NodeInput) "x" = none ∧
    simulate_structure ⟨[], [⟨"b1", "x", "y", 1, 1, 1⟩], [], "frame"⟩ =
      .ok ⟨[], []⟩ ∧
    solve_truss ⟨[], [⟨"b1", "x", "y", 1, 1, 1⟩], [], "truss"⟩ =
      .ok ⟨[], []⟩ ∧
    nodeIdx [(⟨"A", 0, 0, none⟩ : NodeInput)] "x" = none ∧
    solve_truss ⟨[⟨"A", 0, 0, none⟩], [⟨"b1", "x", "y", 1, 1, 1⟩], [], "truss"⟩ =
      .error (.notDeterminate 1 2) ∧
    (∀ s, (TrussError.notDeterminate 1 2 : TrussError) ≠ .unknownNodeBeam s) :=
  ⟨rfl, rfl, rfl, rfl, rfl, fun s => by simp⟩

/-- C8 amended: on a non-empty node set a dangling member or load
reference always makes the call fail (both paths; on the truss path the
failure may be the earlier determinacy error), and when the offending
member is first in the list — so that its check runs first — the error
is precisely the unknown-node error naming that member's id. -/
theorem C8_unknown_node_fails :
    (∀ inp : SimulationInput, inp.nodes ≠ [] →
      (∃ b ∈ inp.beams, nodeIdx inp.nodes b.node_start = none ∨
        nodeIdx inp.nodes b.node_end = none) →
      ∃ e, simulate_structure inp = .error e) ∧
    (∀ inp : SimulationInput, inp.nodes ≠ [] →
      (∃ ld ∈ inp.loads, nodeIdx inp.nodes ld.node_id = none) →
      ∃ e, simulate_structure inp = .error e) ∧
    (∀ inp : SimulationInput, inp.nodes ≠ [] →
      (∃ b ∈ inp.beams, nodeIdx inp.nodes b.node_start = none ∨
        nodeIdx inp.nodes b.node_end = none) →
      ∃ e, solve_truss inp = .error e) ∧
    (∀ inp : SimulationInput, inp.nodes ≠ [] →
      (∃ ld ∈ inp.loads, nodeIdx inp.nodes ld.node_id = none) →
      ∃ e, solve_truss inp = .error e) ∧
    (∀ (inp : SimulationInput) (b : BeamInput) (rest : List BeamInput),
      inp.nodes ≠ [] → inp.beams = b :: rest →
      (nodeIdx inp.nodes b.node_start = none ∨
        nodeIdx inp.nodes b.node_end = none) →
      simulate_structure inp = .error (.unknownNodeBeam b.id)) ∧
    (∀ s, (FrameError.unknownNodeBeam s).message =
      "Beam " ++ s ++ " references unknown node") := by
  have hz0 : ∀ inp : SimulationInput, inp.nodes ≠ [] →
      ¬(inp.nodes.length = 0) :=
    fun inp hne h => hne (List.length_eq_zero.mp h)
  refine ⟨?_, ?_, ?_, ?_, ?_, fun s => rfl⟩
  · intro inp hne hdang
    obtain ⟨e, he⟩ := checkBeamsFrame_err_of_dangling inp.nodes inp.beams hdang
    refine ⟨e, ?_⟩
    simp only [simulate_structure, he]
    rw [if_neg (hz0 inp hne)]
  · intro inp hne hdang
    rcases hb : checkBeamsFrame inp.nodes inp.beams with e0 | ds
    · refine ⟨e0, ?_⟩
      simp only [simulate_structure, hb]
      rw [if_neg (hz0 inp hne)]
    · obtain ⟨e, he⟩ := checkLoads_err_of_dangling inp.nodes inp.loads hdang
      refine ⟨e, ?_⟩
      simp only [simulate_structure, hb, he]
      rw [if_neg (hz0 inp hne)]
  · intro inp hne hdang
    by_cases hdet : inp.beams.length + (reactionDofs inp.nodes).length =
        2 * inp.nodes.length
    · obtain ⟨e, he⟩ := checkBeamsTruss_err_of_dangling inp.nodes inp.beams hdang
      refine ⟨e, ?_⟩
      simp only [solve_truss, he]
      rw [if_neg (hz0 inp hne), if_pos hdet]
    · refine ⟨.notDeterminate
        (inp.beams.length + (reactionDofs inp.nodes).length)
        (2 * inp.nodes.length), ?_⟩
      simp only [solve_truss]
      rw [if_neg (hz0 inp hne), if_neg hdet]
  · intro inp hne hdang
    by_cases hdet : inp.beams.length + (reactionDofs inp.nodes).length =
        2 * inp.nodes.length
    · rcases hb : checkBeamsTruss inp.nodes inp.beams with e0 | ds
      · refine ⟨e0, ?_⟩
        simp only [solve_truss, hb]
        rw [if_neg (hz0 inp hne), if_pos hdet]
      · obtain ⟨e, he⟩ := checkLoadsTruss_err_of_dangling inp.nodes inp.loads hdang
        refine ⟨e, ?_⟩
        simp only [solve_truss, hb, he]
        rw [if_neg (hz0 inp hne), if_pos hdet]
    · refine ⟨.notDeterminate
        (inp.beams.length + (reactionDofs inp.nodes).length)
        (2 * inp.nodes.length), ?_⟩
      simp only [solve_truss]
      rw [if_neg (hz0 inp hne), if_neg hdet]
  · intro inp b rest hne hbe hdang
    have hcb : checkBeamsFrame inp.nodes (b :: rest) =
        .error (.unknownNodeBeam b.id) := by
      rcases hdang with h1 | h1
      · simp only [checkBeamsFrame, h1]
      · rcases hs : nodeIdx inp.nodes b.node_start with _ | i
        · simp only [checkBeamsFrame, hs]
        · simp only [checkBeamsFrame, hs, h1]
    simp only [simulate_structure, hbe, hcb]
    rw [if_neg (hz0 inp hne)]

/-- Witness for the amended C8: a single-node frame with a dangling
member fails with the unknown-node error naming the member. -/
theorem C8_witness :
    ([(⟨"A", 0, 0, none⟩ : NodeInput)] ≠ ([] : List NodeInput)) ∧
    nodeIdx [(⟨"A", (0 : ℝ), 0, none⟩ : NodeInput)] "x" = none ∧
    simulate_structure ⟨[⟨"A", 0, 0, none⟩], [⟨"b1", "x", "A", 1, 1, 1⟩], [],
      "frame"⟩ = .error (.unknownNodeBeam "b1") :=
  ⟨by simp, rfl,
   C8_unknown_node_fails.2.2.2.2.1
     ⟨[⟨"A", 0, 0, none⟩], [⟨"b1", "x", "A", 1, 1, 1⟩], [], "frame"⟩
     ⟨"b1", "x", "A", 1, 1, 1⟩ [] (by simp) rfl (Or.inl rfl)⟩

/-! ## Zero-length members (C9). -/

/-- Frame beam validation fails whenever some member resolves to
coincident endpoints (the failure may be an earlier member's error). -/
lemma checkBeamsFrame_err_of_zero (nodes : List NodeInput) :
    ∀ beams : List BeamInput,
    (∃ b ∈ beams, ∃ i jn, nodeIdx nodes b.node_start = some i ∧
      nodeIdx nodes b.node_end = some jn ∧
      Real.sqrt (((nodes.get jn).x - (nodes.get i).x) ^ 2 +
        ((nodes.get jn).y - (nodes.get i).y) ^ 2) ≤ 0) →
    ∃ e, checkBeamsFrame nodes beams = .error e
  | [], h => absurd h (by simp)
  | b :: rest, h => by
    rcases hs : nodeIdx nodes b.node_start with _ | i
    · exact ⟨.unknownNodeBeam b.id, by simp only [checkBeamsFrame, hs]⟩
    · rcases ht : nodeIdx nodes b.node_end with _ | jn
      · exact ⟨.unknownNodeBeam b.id, by simp only [checkBeamsFrame, hs, ht]⟩
      · rcases hel : _element_stiffness b.E b.A b.I (nodes.get i).x
            (nodes.get i).y (nodes.get jn).x (nodes.get jn).y with e0 | tup
        · exact ⟨e0, by simp only [checkBeamsFrame, hs, ht, hel]⟩
        · have hrest : ∃ b2 ∈ rest, ∃ i2 jn2,
              nodeIdx nodes b2.node_start = some i2 ∧
              nodeIdx nodes b2.node_end = some jn2 ∧
              Real.sqrt (((nodes.get jn2).x - (nodes.get i2).x) ^ 2 +
                ((nodes.get jn2).y - (nodes.get i2).y) ^ 2) ≤ 0 := by
            rcases h with ⟨b2, hmem, i2, jn2, hi2, hj2, hL2⟩
            rcases List.mem_cons.mp hmem with he | hm
            · subst he
              obtain rfl : i2 = i := Option.some.inj (hi2.symm.trans hs)
              obtain rfl : jn2 = jn := Option.some.inj (hj2.symm.trans ht)
              have herr := element_stiffness_err b2.E b2.A b2.I
                (nodes.get i2).x (nodes.get i2).y
                (nodes.get jn2).x (nodes.get jn2).y
                ((sqrt_nonpos_iff _).mp hL2)
              exact Except.noConfusion (herr.symm.trans hel)
            · exact ⟨b2, hm, i2, jn2, hi2, hj2, hL2⟩
          obtain ⟨e, he⟩ := checkBeamsFrame_err_of_zero nodes rest hrest
          obtain ⟨kg, L0, c0, s0⟩ := tup
          exact ⟨e, by simp only [checkBeamsFrame, hs, ht, hel, he]⟩

/-- Truss member validation fails whenever some member resolves to
coincident endpoints. -/
lemma checkBeamsTruss_err_of_zero (nodes : List NodeInput) :
    ∀ beams : List BeamInput,
    (∃ b ∈ beams, ∃ i jn, nodeIdx nodes b.node_start = some i ∧
      nodeIdx nodes b.node_end = some jn ∧
      Real.sqrt (((nodes.get jn).x - (nodes.get i).x) ^ 2 +
        ((nodes.get jn).y - (nodes.get i).y) ^ 2) ≤ 0) →
    ∃ e, checkBeamsTruss nodes beams = .error e
  | [], h => absurd h (by simp)
  | b :: rest, h => by
    rcases hs : nodeIdx nodes b.node_start with _ | i
    · exact ⟨.unknownNodeBeam b.id, by simp only [checkBeamsTruss, hs]⟩
    · rcases ht : nodeIdx nodes b.node_end with _ | jn
      · exact ⟨.unknownNodeBeam b.id, by simp only [checkBeamsTruss, hs, ht]⟩
      · by_cases hL : Real.sqrt (((nodes.get jn).x - (nodes.get i).x) ^ 2 +
            ((nodes.get jn).y - (nodes.get i).y) ^ 2) ≤ 0
        · refine ⟨.zeroLength, ?_⟩
          simp only [checkBeamsTruss, hs, ht]
          rw [if_pos hL]
        · have hrest : ∃ b2 ∈ rest, ∃ i2 jn2,
              nodeIdx nodes b2.node_start = some i2 ∧
              nodeIdx nodes b2.node_end = some jn2 ∧
              Real.sqrt (((nodes.get jn2).x - (nodes.get i2).x) ^ 2 +
                ((nodes.get jn2).y - (nodes.get i2).y) ^ 2) ≤ 0 := by
            rcases h with ⟨b2, hmem, i2, jn2, hi2, hj2, hL2⟩
            rcases List.mem_cons.mp hmem with he | hm
            · subst he
              obtain rfl : i2 = i := Option.some.inj (hi2.symm.trans hs)
              obtain rfl : jn2 = jn := Option.some.inj (hj2.symm.trans ht)
              exact absurd hL2 hL
            · exact ⟨b2, hm, i2, jn2, hi2, hj2, hL2⟩
          obtain ⟨e, he⟩ := checkBeamsTruss_err_of_zero nodes rest hrest
          refine ⟨e, ?_⟩
          simp only [checkBeamsTruss, hs, ht, he]
          rw [if_neg hL]

/-- C9 counterexample: a member connecting a node to itself in a truss
whose determinacy count is off fails with the determinacy error — not
the zero-length error the claim requires for every such member. -/
theorem C9_counterexample :
    nodeIdx [(⟨"A", (0 : ℝ), 0, none⟩ : NodeInput)] "A" = some ⟨0, by simp⟩ ∧
    Real.sqrt ((((0 : ℝ)) - 0) ^ 2 + (((0 : ℝ)) - 0) ^ 2) ≤ 0 ∧
    solve_truss ⟨[⟨"A", 0, 0, none⟩], [⟨"b1", "A", "A", 1, 1, 1⟩], [], "truss"⟩ =
      .error (.notDeterminate 1 2) ∧
    (TrussError.notDeterminate 1 2 : TrussError) ≠ .zeroLength :=
  ⟨rfl, by simp, rfl, by simp⟩

/-- C9 amended: with a non-empty node set, a member resolving to
coincident endpoints (length `≤ 0` in exact arithmetic, i.e. any length
rounding to zero) always makes the frame path fail, and the truss path
fail whenever its determinacy precheck passes (otherwise the determinacy
error is raised first); when that member is checked first the error is
precisely the zero-length error, whose messages are the source's
degenerate-element strings. -/
theorem C9_zero_length_fails :
    (∀ inp : SimulationInput, inp.nodes ≠ [] →
      (∃ b ∈ inp.beams, ∃ i jn, nodeIdx inp.nodes b.node_start = some i ∧
        nodeIdx inp.nodes b.node_end = some jn ∧
        Real.sqrt (((inp.nodes.get jn).x - (inp.nodes.get i).x) ^ 2 +
          ((inp.nodes.get jn).y - (inp.nodes.get i).y) ^ 2) ≤ 0) →
      ∃ e, simulate_structure inp = .error e) ∧
    (∀ inp : SimulationInput, inp.nodes ≠ [] →
      (∃ b ∈ inp.beams, ∃ i jn, nodeIdx inp.nodes b.node_start = some i ∧
        nodeIdx inp.nodes b.node_end = some jn ∧
        Real.sqrt (((inp.nodes.get jn).x - (inp.nodes.get i).x) ^ 2 +
          ((inp.nodes.get jn).y - (inp.nodes.get i).y) ^ 2) ≤ 0) →
      ∃ e, solve_truss inp = .error e) ∧
    (∀ (inp : SimulationInput) (b : BeamInput) (rest : List BeamInput)
       (i jn : Fin inp.nodes.length),
      inp.nodes ≠ [] → inp.beams = b :: rest →
      nodeIdx inp.nodes b.node_start = some i →
      nodeIdx inp.nodes b.node_end = some jn →
      Real.sqrt (((inp.nodes.get jn).x - (inp.nodes.get i).x) ^ 2 +
        ((inp.nodes.get jn).y - (inp.nodes.get i).y) ^ 2) ≤ 0 →
      simulate_structure inp = .error .zeroLength) ∧
    (∀ (inp : SimulationInput) (b : BeamInput) (rest : List BeamInput)
       (i jn : Fin inp.nodes.length),
      inp.nodes ≠ [] →
      inp.beams.length + (reactionDofs inp.nodes).length =
        2 * inp.nodes.length →
      inp.beams = b :: rest →
      nodeIdx inp.nodes b.node_start = some i →
      nodeIdx inp.nodes b.node_end = some jn →
      Real.sqrt (((inp.nodes.get jn).x - (inp.nodes.get i).x) ^ 2 +
        ((inp.nodes.get jn).y - (inp.nodes.get i).y) ^ 2) ≤ 0 →
      solve_truss inp = .error .zeroLength) ∧
    FrameError.zeroLength.message = "Zero length element" ∧
    TrussError.zeroLength.message = "Zero-length member" := by
  have hz0 : ∀ inp : SimulationInput, inp.nodes ≠ [] →
      ¬(inp.nodes.length = 0) :=
    fun inp hne h => hne (List.length_eq_zero.mp h)
  refine ⟨?_, ?_, ?_, ?_, rfl, rfl⟩
  · intro inp hne hzb
    obtain ⟨e, he⟩ := checkBeamsFrame_err_of_zero inp.nodes inp.beams hzb
    refine ⟨e, ?_⟩
    simp only [simulate_structure, he]
    rw [if_neg (hz0 inp hne)]
  · intro inp hne hzb
    by_cases hdet : inp.beams.length + (reactionDofs inp.nodes).length =
        2 * inp.nodes.length
    · obtain ⟨e, he⟩ := checkBeamsTruss_err_of_zero inp.nodes inp.beams hzb
      refine ⟨e, ?_⟩
      simp only [solve_truss, he]
      rw [if_neg (hz0 inp hne), if_pos hdet]
    · refine ⟨.notDeterminate
        (inp.beams.length + (reactionDofs inp.nodes).length)
        (2 * inp.nodes.length), ?_⟩
      simp only [solve_truss]
      rw [if_neg (hz0 inp hne), if_neg hdet]
  · intro inp b rest i jn hne hbe hs ht hL
    have hcb : checkBeamsFrame inp.nodes (b :: rest) = .error .zeroLength := by
      have herr := element_stiffness_err b.E b.A b.I
        (inp.nodes.get i).x (inp.nodes.get i).y
        (inp.nodes.get jn).x (inp.nodes.get jn).y ((sqrt_nonpos_iff _).mp hL)
      simp only [checkBeamsFrame, hs, ht, herr]
    simp only [simulate_structure, hbe, hcb]
    rw [if_neg (hz0 inp hne)]
  · intro inp b rest i jn hne hdet hbe hs ht hL
    have hcb : checkBeamsTruss inp.nodes (b :: rest) = .error .zeroLength := by
      simp only [checkBeamsTruss, hs, ht]
      rw [if_pos hL]
    have hdet2 : (b :: rest).length + (reactionDofs inp.nodes).length =
        2 * inp.nodes.length := by rw [← hbe]; exact hdet
    simp only [solve_truss, hbe, hcb]
    rw [if_neg (hz0 inp hne), if_pos hdet2]

/-- Witness for the amended C9: two distinct nodes at the same position
joined by the first member make the frame path fail with the zero-length
error. -/
theorem C9_witness :
    ([(⟨"A", 0, 0, none⟩ : NodeInput), ⟨"B", 0, 0, none⟩] ≠
      ([] : List NodeInput)) ∧
    nodeIdx [(⟨"A", (0 : ℝ), 0, none⟩ : NodeInput), ⟨"B", 0, 0, none⟩] "A" =
      some ⟨0, by simp⟩ ∧
    nodeIdx [(⟨"A", (0 : ℝ), 0, none⟩ : NodeInput), ⟨"B", 0, 0, none⟩] "B" =
      some ⟨1, by simp⟩ ∧
    simulate_structure ⟨[⟨"A", 0, 0, none⟩, ⟨"B", 0, 0, none⟩],
      [⟨"b1", "A", "B", 1, 1, 1⟩], [], "frame"⟩ = .error .zeroLength :=
  ⟨by simp, rfl, rfl,
   C9_zero_length_fails.2.2.1
     ⟨[⟨"A", 0, 0, none⟩, ⟨"B", 0, 0, none⟩], [⟨"b1", "A", "B", 1, 1, 1⟩], [],
      "frame"⟩
     ⟨"b1", "A", "B", 1, 1, 1⟩ [] ⟨0, by simp⟩ ⟨1, by simp⟩
     (by simp) rfl rfl rfl (by simp)⟩

/-! ## Section properties are dead data on the truss path (C10). -/

/-- Two members with the same id and endpoints (their `E`, `I`, `A` may
differ arbitrarily). -/
def trussShapeEq (b1 b2 : BeamInput) : Prop :=
  b1.id = b2.id ∧ b1.node_start = b2.node_start ∧ b1.node_end = b2.node_end

/-- Two member descriptors with the same resolved geometry. -/
def descMatch {n : ℕ} (d1 d2 : TrussDesc n) : Prop :=
  d1.i = d2.i ∧ d1.j = d2.j ∧ d1.c = d2.c ∧ d1.s = d2.s

/-- Member validation treats shape-equal member lists identically:
either the same error, or geometry-matching descriptor lists. -/
lemma checkBeamsTruss_congr (nodes : List NodeInput) :
    ∀ {beams1 beams2 : List BeamInput},
    List.Forall₂ trussShapeEq beams1 beams2 →
    (∃ e, checkBeamsTruss nodes beams1 = .error e ∧
      checkBeamsTruss nodes beams2 = .error e) ∨
    (∃ ds1 ds2, checkBeamsTruss nodes beams1 = .ok ds1 ∧
      checkBeamsTruss nodes beams2 = .ok ds2 ∧
      List.Forall₂ descMatch ds1 ds2)
  | [], [], _ => Or.inr ⟨[], [], rfl, rfl, List.Forall₂.nil⟩
  | b1 :: bs1, b2 :: bs2, h => by
    obtain ⟨⟨hid, hst, hen⟩, hrest⟩ := List.forall₂_cons.mp h
    rcases hs : nodeIdx nodes b1.node_start with _ | i
    · have hs2 : nodeIdx nodes b2.node_start = none := by rw [← hst]; exact hs
      refine Or.inl ⟨.unknownNodeBeam b1.id, by simp only [checkBeamsTruss, hs], ?_⟩
      simp only [checkBeamsTruss, hs2]
      rw [hid]
    · have hs2 : nodeIdx nodes b2.node_start = some i := by rw [← hst]; exact hs
      rcases ht : nodeIdx nodes b1.node_end with _ | jn
      · have ht2 : nodeIdx nodes b2.node_end = none := by rw [← hen]; exact ht
        refine Or.inl ⟨.unknownNodeBeam b1.id, ?_, ?_⟩
        · simp only [checkBeamsTruss, hs, ht]
        · simp only [checkBeamsTruss, hs2, ht2]
          rw [hid]
      · have ht2 : nodeIdx nodes b2.node_end = some jn := by rw [← hen]; exact ht
        by_cases hL : Real.sqrt (((nodes.get jn).x - (nodes.get i).x) ^ 2 +
            ((nodes.get jn).y - (nodes.get i).y) ^ 2) ≤ 0
        · refine Or.inl ⟨.zeroLength, ?_, ?_⟩
          · simp only [checkBeamsTruss, hs, ht]
            rw [if_pos hL]
          · simp only [checkBeamsTruss, hs2, ht2]
            rw [if_pos hL]
        · rcases checkBeamsTruss_congr nodes hrest with
            ⟨e, he1, he2⟩ | ⟨ds1, ds2, hd1, hd2, hds⟩
          · refine Or.inl ⟨e, ?_, ?_⟩
            · simp only [checkBeamsTruss, hs, ht, he1]
              rw [if_neg hL]
            · simp only [checkBeamsTruss, hs2, ht2, he2]
              rw [if_neg hL]
          · refine Or.inr
              ⟨⟨b1, i, jn,
                 ((nodes.get jn).x - (nodes.get i).x) /
                   Real.sqrt (((nodes.get jn).x - (nodes.get i).x) ^ 2 +
                     ((nodes.get jn).y - (nodes.get i).y) ^ 2),
                 ((nodes.get jn).y - (nodes.get i).y) /
                   Real.sqrt (((nodes.get jn).x - (nodes.get i).x) ^ 2 +
                     ((nodes.get jn).y - (nodes.get i).y) ^ 2)⟩ :: ds1,
               ⟨b2, i, jn,
                 ((nodes.get jn).x - (nodes.get i).x) /
                   Real.sqrt (((nodes.get jn).x - (nodes.get i).x) ^ 2 +
                     ((nodes.get jn).y - (nodes.get i).y) ^ 2),
                 ((nodes.get jn).y - (nodes.get i).y) /
                   Real.sqrt (((nodes.get jn).x - (nodes.get i).x) ^ 2 +
                     ((nodes.get jn).y - (nodes.get i).y) ^ 2)⟩ :: ds2, ?_, ?_,
              List.Forall₂.cons ⟨rfl, rfl, rfl, rfl⟩ hds⟩
            · simp only [checkBeamsTruss, hs, ht, hd1]
              rw [if_neg hL]
            · simp only [checkBeamsTruss, hs2, ht2, hd2]
              rw [if_neg hL]

/-- The equilibrium matrix only reads the resolved geometry of the
descriptors. -/
lemma trussMatrix_congr (n : ℕ) (ds1 ds2 : List (TrussDesc n))
    (rs : List (Fin n × Bool)) (h : List.Forall₂ descMatch ds1 ds2) :
    trussMatrix n ds1 rs = trussMatrix n ds2 rs := by
  have hlen : ds1.length = ds2.length := h.length_eq
  funext p q
  by_cases hq : q.val < ds2.length
  · have hq1 : q.val < ds1.length := by omega
    obtain ⟨hi, hj, hc, hsf⟩ := h.get hq1 hq
    simp only [trussMatrix]
    rw [dif_pos hq1, dif_pos hq, hi, hj, hc, hsf]
  · have hq1 : ¬(q.val < ds1.length) := by omega
    simp only [trussMatrix]
    rw [dif_neg hq1, dif_neg hq, hlen]

/-- The reported member forces only read the solution entries and the
member ids. -/
lemma trussInternal_congr (n : ℕ) (x : Fin (2 * n) → ℝ) :
    ∀ (beams1 beams2 : List BeamInput),
    List.Forall₂ trussShapeEq beams1 beams2 →
    ∀ k, trussInternal n x beams1 k = trussInternal n x beams2 k
  | [], [], _, _ => rfl
  | b1 :: bs1, b2 :: bs2, h, k => by
    obtain ⟨⟨hid, _, _⟩, hrest⟩ := List.forall₂_cons.mp h
    simp only [trussInternal, hid, trussInternal_congr n x bs1 bs2 hrest (k + 1)]

/-- C10: the truss path never reads the members' `E`, `I`, `A`: two
inputs with the same nodes and loads whose member lists agree in ids and
endpoints (but with arbitrary section/material values) produce exactly
the same outcome — the same result on success and the same error on
failure. -/
theorem C10_section_properties_irrelevant (nodes : List NodeInput)
    (beams1 beams2 : List BeamInput) (loads : List LoadInput) (t1 t2 : String)
    (h : List.Forall₂ trussShapeEq beams1 beams2) :
    solve_truss ⟨nodes, beams1, loads, t1⟩ = solve_truss ⟨nodes, beams2, loads, t2⟩ := by
  have hlen : beams1.length = beams2.length := h.length_eq
  simp only [solve_truss]
  by_cases hz : nodes.length = 0
  · rw [if_pos hz, if_pos hz]
  · rw [if_neg hz, if_neg hz, hlen]
    by_cases hdet : beams2.length + (reactionDofs nodes).length = 2 * nodes.length
    · rw [if_pos hdet, if_pos hdet]
      rcases checkBeamsTruss_congr nodes h with
        ⟨e, he1, he2⟩ | ⟨ds1, ds2, hd1, hd2, hds⟩
      · rw [he1, he2]
      · rw [hd1, hd2]
        simp only []
        rcases hl : checkLoadsTruss nodes loads with e | u <;> simp only []
        rw [trussMatrix_congr nodes.length ds1 ds2 (reactionDofs nodes) hds,
          trussInternal_congr nodes.length _ beams1 beams2 h 0]
    · rw [if_neg hdet, if_neg hdet]

/-- Witness for C10: the same degenerate truss with `E, I, A` changed
from `(1,1,1)` to `(99,88,77)` fails identically. -/
theorem C10_witness :
    List.Forall₂ trussShapeEq [⟨"b1", "A", "A", 1, 1, 1⟩]
      [⟨"b1", "A", "A", 99, 88, 77⟩] ∧
    solve_truss ⟨[⟨"A", 0, 0, none⟩], [⟨"b1", "A", "A", 1, 1, 1⟩], [], "truss"⟩ =
      solve_truss ⟨[⟨"A", 0, 0, none⟩], [⟨"b1", "A", "A", 99, 88, 77⟩], [], "truss"⟩ :=
  ⟨List.Forall₂.cons ⟨rfl, rfl, rfl⟩ List.Forall₂.nil,
   C10_section_properties_irrelevant [⟨"A", 0, 0, none⟩]
     [⟨"b1", "A", "A", 1, 1, 1⟩] [⟨"b1", "A", "A", 99, 88, 77⟩] [] "truss" "truss"
     (List.Forall₂.cons ⟨rfl, rfl, rfl⟩ List.Forall₂.nil)⟩

end Structural
